import Mathlib

/-!
# ClawStreet trading core — shallow embedding and verification

This file embeds the trading core of the ClawStreet repository in Lean 4 and
settles a list of claims about it.

Modelling conventions, used throughout:

* JS IEEE-754 `number` values are modelled as `ℚ`.  All the money arithmetic
  in the embedded code is `+ - * /` and `max`, which `ℚ` models exactly; the
  one transcendental (`Math.sqrt` inside the option time value) is abstracted
  as an explicit function parameter `sqrtFn : ℚ → ℚ`, since no claim depends
  on its value.
* JS objects used as string-keyed maps (`holdings`, `leverageSettings`,
  `tickerTypes`, …) are association lists `List (String × α)`; key update
  keeps the entry in place, new keys are appended (JS property order).
* Quote providers perform HTTP calls; they are modelled as oracles.  A single
  fetch is `String → Option ℚ` (`none` = the fetch throws, i.e. a network
  error); the Binance bulk endpoint is one request for a whole symbol list,
  `List String → Option (List (String × ℚ))` (`none` = the request throws,
  `some items` = the parsed response array, which may omit symbols).  The
  30-second TTL cache is modelled as the fresh-entry view `String → Option ℚ`.
* `crypto.randomUUID()` position ids are modelled by a fresh-counter `ℕ` id
  carried in the system state.
* Wall-clock time: `Date.now()` is a parameter `now : ℚ` (epoch milliseconds)
  and `new Date(expiryDate + "T16:00:00-05:00").getTime()` is an abstract
  parameter `expiryMs : String → ℚ` (the 16:00 −05:00 parse is opaque to all
  claims).  "Today" in `YYYY-MM-DD` form is a `String` parameter.
* ISO timestamp fields (`date`, `openedAt`, `updatedAt`) and human-readable
  messages carry no information any claim depends on and are omitted from
  the records; the tagged result kind of each public operation is kept
  instead, mirroring the error taxonomy (InvalidParam, InsufficientFunds,
  InsufficientHoldings, NetworkError, NotFound, Invariant).
-/

namespace ClawStreet

/-! ## Data model (src/src/portfolio/portfolio-store.ts, futures-position.ts,
options-position.ts) -/

/-- Spot asset classes (`AssetClass` in portfolio-store.ts). -/
inductive AssetClass
  | usStockSpot
  | cryptoSpot
  deriving DecidableEq, Repr

/-- Legacy asset-type hint (`AssetType` in portfolio-store.ts). -/
inductive AssetType
  | crypto
  | stock
  deriving DecidableEq, Repr

/-- A spot holding (`Holding` in portfolio-store.ts); `assetClass` is an
optional field on the JS object. -/
structure Holding where
  quantity : ℚ
  averagePrice : ℚ
  assetClass : Option AssetClass
  deriving DecidableEq, Repr

/-- Spot transaction type. -/
inductive TxType
  | buy
  | sell
  deriving DecidableEq, Repr

/-- A spot transaction (`Transaction` in portfolio-store.ts; the ISO date and
the optional reasoning string are omitted, see the header). -/
structure Transaction where
  type : TxType
  ticker : String
  quantity : ℚ
  price : ℚ
  deriving DecidableEq, Repr

/-- One daily equity snapshot (`DailySnapshot` in portfolio-store.ts). -/
structure DailySnapshot where
  date : String
  totalValue : ℚ
  deriving DecidableEq, Repr

/-- The persisted portfolio aggregate (`PortfolioData`).  The optional maps
(`holdingMeta`, `tickerTypes`, `dailySnapshots`) are read through `?? {}` /
`?? []` everywhere in the source, so `undefined` and the empty collection are
indistinguishable and both are modelled as the empty list. -/
structure PortfolioData where
  cash : ℚ
  holdings : List (String × Holding)
  transactionHistory : List Transaction
  tickerTypes : List (String × AssetType)
  dailySnapshots : List DailySnapshot
  deriving DecidableEq, Repr

/-- Futures position side. -/
inductive Side
  | long
  | short
  deriving DecidableEq, Repr

/-- An open futures position (`FuturesPosition` in futures-position.ts);
`assetClass` is the constant `crypto_perp` and `marginMode` the constant
`isolated`, and the two ISO timestamps are omitted. -/
structure FuturesPosition where
  id : ℕ
  ticker : String
  side : Side
  quantity : ℚ
  entryPrice : ℚ
  markPrice : ℚ
  leverage : ℚ
  initialMargin : ℚ
  maintenanceMargin : ℚ
  marginBalance : ℚ
  liquidationPrice : ℚ
  maintenanceMarginRate : ℚ
  unrealizedPnl : ℚ
  roe : ℚ
  realizedPnl : ℚ
  deriving DecidableEq, Repr

/-- Futures transaction type. -/
inductive FuturesTxType
  | openLong
  | openShort
  | closeLong
  | closeShort
  | liquidation
  deriving DecidableEq, Repr

/-- A futures ledger entry (`FuturesTransaction`). -/
structure FuturesTransaction where
  type : FuturesTxType
  ticker : String
  quantity : ℚ
  price : ℚ
  leverage : Option ℚ
  pnl : Option ℚ
  deriving DecidableEq, Repr

/-- The persisted futures aggregate (`FuturesData`). -/
structure FuturesData where
  positions : List FuturesPosition
  leverageSettings : List (String × ℚ)
  transactions : List FuturesTransaction
  deriving DecidableEq, Repr

/-- Option type. -/
inductive OptionType
  | call
  | put
  deriving DecidableEq, Repr

/-- An option contract (`OptionContract`; the constant `multiplier = 100` is
inlined at its use sites). -/
structure OptionContract where
  underlying : String
  type : OptionType
  strikePrice : ℚ
  expiryDate : String
  impliedVol : ℚ
  deriving DecidableEq, Repr

/-- An open option position (`OptionPosition`; `assetClass` is the constant
`us_stock_option`; `openedAt` omitted). -/
structure OptionPosition where
  id : ℕ
  contract : OptionContract
  contracts : ℚ
  premiumPaid : ℚ
  premiumPerShare : ℚ
  currentPremium : ℚ
  currentValue : ℚ
  unrealizedPnl : ℚ
  unrealizedPnlPercent : ℚ
  daysToExpiry : ℚ
  expiryDate : String
  deriving DecidableEq, Repr

/-- Options transaction type. -/
inductive OptionTxType
  | buyCall
  | buyPut
  | sellCall
  | sellPut
  | expireItm
  | expireOtm
  deriving DecidableEq, Repr

/-- An options ledger entry (`OptionTransaction`). -/
structure OptionTransaction where
  type : OptionTxType
  underlying : String
  strikePrice : ℚ
  expiryDate : String
  contracts : ℚ
  premiumPerShare : ℚ
  totalAmount : ℚ
  pnl : Option ℚ
  deriving DecidableEq, Repr

/-- The persisted options aggregate (`OptionsData`). -/
structure OptionsData where
  positions : List OptionPosition
  transactions : List OptionTransaction
  deriving DecidableEq, Repr

/-- Tagged result kind of a public operation, mirroring the error taxonomy of
the `{success, message}` returns (each constructor corresponds to one message
branch of the source). -/
inductive OpResult
  | ok
  | invalidParam
  | insufficientFunds
  | insufficientHoldings
  | networkError
  | notFound
  | invariantViolation
  deriving DecidableEq, Repr

/-! ## String helpers

JS `toUpperCase()` / `endsWith()` on the ASCII tickers and symbols the system
handles, implemented over the character list (Lean's own `String.toUpper` is
observationally identical on ASCII but is opaque to kernel evaluation). -/

/-- ASCII uppercase of a string (JS `toUpperCase` on ticker symbols). -/
def strToUpper (s : String) : String := ⟨s.data.map Char.toUpper⟩

/-- JS `endsWith`. -/
def strEndsWith (s suffix : String) : Bool := suffix.data.isSuffixOf s.data

/-! ## Association-list helpers (JS object-as-map semantics) -/

/-- Key lookup: first entry with the key (JS objects have unique keys). -/
def lookupKey (m : List (String × α)) (k : String) : Option α :=
  match m with
  | [] => none
  | (k', v) :: rest => if k' = k then some v else lookupKey rest k

/-- Key update: overwrite the entry in place when present, append otherwise
(JS property-order semantics). -/
def setKey (m : List (String × α)) (k : String) (v : α) : List (String × α) :=
  match m with
  | [] => [(k, v)]
  | (k', v') :: rest => if k' = k then (k, v) :: rest else (k', v') :: setKey rest k v

/-- Key removal (`delete obj[k]`). -/
def eraseKey (m : List (String × α)) (k : String) : List (String × α) :=
  match m with
  | [] => []
  | (k', v') :: rest => if k' = k then rest else (k', v') :: eraseKey rest k

theorem lookupKey_setKey_self (m : List (String × α)) (k : String) (v : α) :
    lookupKey (setKey m k v) k = some v := by
  induction m with
  | nil => simp [setKey, lookupKey]
  | cons hd tl ih =>
    obtain ⟨k', v'⟩ := hd
    by_cases h : k' = k <;> simp [setKey, lookupKey, h, ih]

/-! ## Margin calculator (src/src/futures/margin-calculator.ts) -/

/-- Initial margin = notional value / leverage. -/
def calcInitialMargin (quantity entryPrice leverage : ℚ) : ℚ :=
  quantity * entryPrice / leverage

/-- Tiered maintenance margin rate on notional value. -/
def calcMaintenanceMarginRate (notionalValue : ℚ) : ℚ :=
  if notionalValue < 50000 then 0.004
  else if notionalValue < 250000 then 0.005
  else if notionalValue < 1000000 then 0.01
  else 0.025

/-- Maintenance margin = notional value × maintenance margin rate. -/
def calcMaintenanceMargin (quantity markPrice mmRate : ℚ) : ℚ :=
  quantity * markPrice * mmRate

/-- Liquidation price (isolated margin), closed form per side. -/
def calcLiquidationPrice (entryPrice leverage mmRate : ℚ) (side : Side) : ℚ :=
  match side with
  | .long => entryPrice * (1 - 1 / leverage + mmRate)
  | .short => entryPrice * (1 + 1 / leverage - mmRate)

/-- Unrealized P&L of a position at a mark price. -/
def calcUnrealizedPnl (side : Side) (quantity entryPrice markPrice : ℚ) : ℚ :=
  match side with
  | .long => (markPrice - entryPrice) * quantity
  | .short => (entryPrice - markPrice) * quantity

/-- ROE% = unrealized P&L / initial margin × 100 (0 when the margin is 0). -/
def calcROE (unrealizedPnl initialMargin : ℚ) : ℚ :=
  if initialMargin = 0 then 0 else unrealizedPnl / initialMargin * 100

/-! ## Options pricing (src/src/options/options-pricing.ts, found in the
repository as src/unnamed/part_001) -/

/-- The fixed implied-volatility table (`IV_OVERRIDES`). -/
def IV_OVERRIDES : List (String × ℚ) :=
  [("AAPL", 0.25), ("MSFT", 0.25), ("GOOGL", 0.25), ("GOOG", 0.25),
   ("AMZN", 0.3), ("META", 0.3), ("BRK", 0.2), ("JNJ", 0.2), ("JPM", 0.25),
   ("V", 0.25),
   ("TSLA", 0.45), ("NVDA", 0.45), ("AMD", 0.45), ("PLTR", 0.5),
   ("COIN", 0.6), ("SQ", 0.5), ("SHOP", 0.45), ("MSTR", 0.6),
   ("GME", 0.8), ("AMC", 0.8), ("BBBY", 0.8), ("SPCE", 0.7)]

def DEFAULT_IV : ℚ := 0.35

/-- Implied volatility for a ticker: table lookup, default 0.35. -/
def getImpliedVol (ticker : String) : ℚ :=
  (lookupKey IV_OVERRIDES (strToUpper ticker)).getD DEFAULT_IV

/-- Intrinsic value per share. -/
def calcIntrinsicValue (currentPrice strikePrice : ℚ) (type : OptionType) : ℚ :=
  match type with
  | .call => max (currentPrice - strikePrice) 0
  | .put => max (strikePrice - currentPrice) 0

/-- Time value per share.  `sqrtFn` abstracts `Math.sqrt`; the source computes
`currentPrice * impliedVol * Math.sqrt(daysToExpiry / 365)` when
`daysToExpiry > 0` and returns 0 otherwise. -/
def calcTimeValue (sqrtFn : ℚ → ℚ) (currentPrice impliedVol daysToExpiry : ℚ) : ℚ :=
  if daysToExpiry ≤ 0 then 0
  else currentPrice * impliedVol * sqrtFn (daysToExpiry / 365)

/-- Option premium per share = intrinsic value + time value. -/
def calcPremium (sqrtFn : ℚ → ℚ)
    (currentPrice strikePrice daysToExpiry impliedVol : ℚ) (type : OptionType) : ℚ :=
  calcIntrinsicValue currentPrice strikePrice type +
    calcTimeValue sqrtFn currentPrice impliedVol daysToExpiry

/-- Days to expiry: `(expiry instant − now)` in days, clamped at 0.  `now` is
epoch milliseconds and `expiryMs` the parse of
`expiryDate + "T16:00:00-05:00"` (see the header). -/
def calcDaysToExpiry (now : ℚ) (expiryMs : String → ℚ) (expiryDate : String) : ℚ :=
  max 0 ((expiryMs expiryDate - now) / 86400000)

/-! ## Quote providers (src/src/portfolio/market-data.ts and
stock-market-data.ts)

`cache` is the fresh (within-TTL) view of the provider cache.  The in-call
cache insertions only matter across calls and are absorbed into the oracle
(the oracles are deterministic within one call, like one consistent set of
HTTP responses). -/

/-- Error kind raised by a failed quote fetch. -/
inductive QuoteErr
  | networkError
  deriving DecidableEq, Repr

/-- The shared body of both single-quote fetches, on an already-uppercased
key: cache hit, else single fetch, else throw.  (JS `toUpperCase` is the
identity on the uppercased keys the bulk path passes back in, so the
normalisation is hoisted out of this body.) -/
def fetchCachedKey (cache fetch1 : String → Option ℚ) (key : String) :
    Except QuoteErr (String × ℚ) :=
  match cache key with
  | some p => .ok (key, p)
  | none =>
    match fetch1 key with
    | some p => .ok (key, p)
    | none => .error .networkError

/-- `StockMarketData.fetchQuote` (Yahoo): normalize, then cache hit, else
single fetch, else throw. -/
def stockFetchQuote (cache fetch1 : String → Option ℚ) (symbol : String) :
    Except QuoteErr (String × ℚ) :=
  fetchCachedKey cache fetch1 (strToUpper symbol)

/-- The uncached uppercased keys of a symbol list (`toFetch` in both
providers). -/
def toFetchOf (cache : String → Option ℚ) (symbols : List String) : List String :=
  symbols.filterMap fun sym =>
    let key := (strToUpper sym)
    if (cache key).isSome then none else some key

/-- The cached results of a symbol list (the `results` accumulated before the
fetch phase, in both providers). -/
def cachedOf (cache : String → Option ℚ) (symbols : List String) : List (String × ℚ) :=
  symbols.filterMap fun sym =>
    let key := (strToUpper sym)
    (cache key).map fun p => (key, p)

/-- `StockMarketData.fetchQuotes` (Yahoo): cached results first, then each
uncached symbol fetched individually, an individual failure yielding
`price = 0` instead of failing the batch.  (The source's single pass that
pushes hits and collects misses is split into its two projections
`cachedOf` / `toFetchOf`.) -/
def stockFetchQuotes (cache fetch1 : String → Option ℚ) (symbols : List String) :
    List (String × ℚ) :=
  cachedOf cache symbols ++
    (toFetchOf cache symbols).map fun key =>
      match fetchCachedKey cache fetch1 key with
      | .ok q => q
      | .error _ => (key, 0)

/-- `MarketData.fetchQuote` (Binance): same shape as the stock provider. -/
def binanceFetchQuote (cache fetch1 : String → Option ℚ) (symbol : String) :
    Except QuoteErr (String × ℚ) :=
  fetchCachedKey cache fetch1 (strToUpper symbol)

/-- `MarketData.fetchQuotes` (Binance): cached results, then ONE bulk request
for all uncached symbols; a failed bulk request throws (fails the whole
call), and the response array is appended as returned — symbols the response
omits simply have no entry. -/
def binanceFetchQuotes (cache : String → Option ℚ)
    (bulk : List String → Option (List (String × ℚ))) (symbols : List String) :
    Except QuoteErr (List (String × ℚ)) :=
  let results := cachedOf cache symbols
  let toFetch := toFetchOf cache symbols
  if toFetch.isEmpty then .ok results
  else
    match bulk toFetch with
    | none => .error .networkError
    | some items => .ok (results ++ items)

/-! ## Portfolio ledger (src/src/portfolio/portfolio.ts)

Each operation is a pure state transformer `PortfolioData → OpResult ×
PortfolioData` (persistence to disk is outside the model). -/

/-- `Portfolio.buyStock`.  `assetType` is the optional `assetType` argument. -/
def buyStock (ticker : String) (quantity price : ℚ) (assetType : Option AssetType)
    (s : PortfolioData) : OpResult × PortfolioData :=
  if quantity ≤ 0 ∨ price ≤ 0 then (.invalidParam, s)
  else
    let cost := quantity * price
    if s.cash < cost then (.insufficientFunds, s)
    else
      let ac : Option AssetClass :=
        match assetType with
        | some .stock => some .usStockSpot
        | some .crypto => some .cryptoSpot
        | none => none
      let holdings' :=
        match lookupKey s.holdings ticker with
        | some current =>
          let totalQuantity := current.quantity + quantity
          let totalCost := current.quantity * current.averagePrice + cost
          setKey s.holdings ticker
            ⟨totalQuantity, totalCost / totalQuantity,
              match ac with
              | some a => some a
              | none => current.assetClass⟩
        | none => setKey s.holdings ticker ⟨quantity, price, ac⟩
      let tickerTypes' :=
        match assetType with
        | some t => setKey s.tickerTypes ticker t
        | none => s.tickerTypes
      (.ok,
        { s with
          cash := s.cash - cost
          holdings := holdings'
          tickerTypes := tickerTypes'
          transactionHistory := s.transactionHistory ++ [⟨.buy, ticker, quantity, price⟩] })

/-- `Portfolio.sellStock`.  Note the partial-sale branch rebuilds the holding
from `quantity` and `averagePrice` only (the `assetClass` field is not
carried over). -/
def sellStock (ticker : String) (quantity price : ℚ) (s : PortfolioData) :
    OpResult × PortfolioData :=
  if quantity ≤ 0 ∨ price ≤ 0 then (.invalidParam, s)
  else
    match lookupKey s.holdings ticker with
    | none => (.insufficientHoldings, s)
    | some current =>
      if current.quantity < quantity then (.insufficientHoldings, s)
      else
        let remaining := current.quantity - quantity
        let holdings' :=
          if remaining = 0 then eraseKey s.holdings ticker
          else setKey s.holdings ticker ⟨remaining, current.averagePrice, none⟩
        (.ok,
          { s with
            cash := s.cash + quantity * price
            holdings := holdings'
            transactionHistory := s.transactionHistory ++ [⟨.sell, ticker, quantity, price⟩] })

/-- `Portfolio.adjustCash`: `cash ← max(0, cash + delta)`; the sole channel by
which the engines modify cash. -/
def adjustCash (delta : ℚ) (s : PortfolioData) : PortfolioData :=
  { s with cash := max 0 (s.cash + delta) }

/-- `Portfolio.reset`: replaces the whole data object, so every map and the
snapshot history are cleared.  The source applies no validation to `cash`. -/
def resetPortfolio (cash : ℚ) (s : PortfolioData) : PortfolioData :=
  let _ := s
  { cash := cash, holdings := [], transactionHistory := [], tickerTypes := [],
    dailySnapshots := [] }

/-- `Portfolio.getTickerType`: legacy hint, defaulting to `crypto`. -/
def getTickerType (ticker : String) (s : PortfolioData) : AssetType :=
  (lookupKey s.tickerTypes ticker).getD .crypto

/-- Overwrite the `totalValue` of the first snapshot dated `today` (the
source finds that entry and mutates it in place). -/
def updateFirstSnap (today : String) (totalValue : ℚ) :
    List DailySnapshot → List DailySnapshot
  | [] => []
  | e :: rest =>
    if e.date = today then ⟨e.date, totalValue⟩ :: rest
    else e :: updateFirstSnap today totalValue rest

/-- `Portfolio.recordDailySnapshot`: create-or-update today's entry, then keep
only the last 90 entries (`slice(-90)`). -/
def recordDailySnapshot (today : String) (totalValue : ℚ) (s : PortfolioData) :
    PortfolioData :=
  let snaps := s.dailySnapshots
  let snaps' :=
    if (snaps.find? fun e => e.date = today).isSome then updateFirstSnap today totalValue snaps
    else snaps ++ [⟨today, totalValue⟩]
  let capped := if 90 < snaps'.length then snaps'.drop (snaps'.length - 90) else snaps'
  { s with dailySnapshots := capped }

/-! ## Spot trading engine (src/src/portfolio/trading-engine.ts, found in the
repository concatenated inside src/src/portfolio/trading.test.ts) -/

/-- Append `USDT` unless the ticker already carries the suffix. -/
def toBinanceSymbol (ticker : String) : String :=
  if strEndsWith ticker "USDT" then ticker else ticker ++ "USDT"

/-- `TradingEngine.fetchPrice`: stock tickers go to the stock provider bare,
crypto tickers to Binance with the `USDT` suffix.  `cryptoQ` / `stockQ` are
the respective single-fetch oracles (cache view included). -/
def fetchPrice (cryptoQ stockQ : String → Option ℚ) (ticker : String)
    (ty : AssetType) : Option ℚ :=
  match ty with
  | .stock => stockQ ticker
  | .crypto => cryptoQ (toBinanceSymbol ticker)

/-- `TradingEngine.executeBuy`: uppercase, resolve the asset type, validate,
fetch (failure = NetworkError, never mutating), reject a non-positive price,
then delegate to `Portfolio.buyStock`. -/
def executeBuy (cryptoQ stockQ : String → Option ℚ) (ticker : String)
    (quantity : ℚ) (ty : Option AssetType) (s : PortfolioData) :
    OpResult × PortfolioData :=
  let normalizedTicker := (strToUpper ticker)
  let assetType := ty.getD (getTickerType normalizedTicker s)
  if quantity ≤ 0 then (.invalidParam, s)
  else
    match fetchPrice cryptoQ stockQ normalizedTicker assetType with
    | none => (.networkError, s)
    | some execPrice =>
      if execPrice ≤ 0 then (.invalidParam, s)
      else buyStock normalizedTicker quantity execPrice (some assetType) s

/-- `TradingEngine.executeSell`: the sell-side mirror of `executeBuy`. -/
def executeSell (cryptoQ stockQ : String → Option ℚ) (ticker : String)
    (quantity : ℚ) (ty : Option AssetType) (s : PortfolioData) :
    OpResult × PortfolioData :=
  let normalizedTicker := (strToUpper ticker)
  let assetType := ty.getD (getTickerType normalizedTicker s)
  if quantity ≤ 0 then (.invalidParam, s)
  else
    match fetchPrice cryptoQ stockQ normalizedTicker assetType with
    | none => (.networkError, s)
    | some execPrice =>
      if execPrice ≤ 0 then (.invalidParam, s)
      else sellStock normalizedTicker quantity execPrice s

/-! ## Combined system state

The portfolio ledger plus both engines' aggregates; `nextId` is the fresh-id
counter standing in for `crypto.randomUUID()`. -/

structure SysState where
  portfolio : PortfolioData
  futures : FuturesData
  options : OptionsData
  nextId : ℕ
  deriving DecidableEq, Repr

/-- First-run defaults: `cash = 100_000`, everything else empty. -/
def init : SysState :=
  { portfolio := { cash := 100000, holdings := [], transactionHistory := [],
                   tickerTypes := [], dailySnapshots := [] }
    futures := { positions := [], leverageSettings := [], transactions := [] }
    options := { positions := [], transactions := [] }
    nextId := 0 }

/-! ## Futures engine (src/src/futures/futures-engine.ts) -/

/-- `FuturesEngine.fetchMarkPrice`: quote of `ticker + "USDT"` (unless already
suffixed) from the Binance oracle. -/
def fetchMarkPrice (cryptoQ : String → Option ℚ) (ticker : String) : Option ℚ :=
  cryptoQ (toBinanceSymbol ticker)

/-- Per-ticker configured leverage, default 20. -/
def getLeverage (d : FuturesData) (ticker : String) : ℚ :=
  (lookupKey d.leverageSettings ticker).getD 20

/-- Replace the first position with the given id (the source mutates the
object returned by its find call, which is the first match). -/
def updateFirstPos (pid : ℕ) (replacement : FuturesPosition) :
    List FuturesPosition → List FuturesPosition
  | [] => []
  | q :: rest =>
    if q.id = pid then replacement :: rest else q :: updateFirstPos pid replacement rest

/-- `FuturesEngine.openPosition` (the shared body of `openLong`/`openShort`;
the caller has already uppercased the ticker). -/
def openPosition (cryptoQ : String → Option ℚ) (ticker : String) (quantity : ℚ)
    (side : Side) (leverage : Option ℚ) (s : SysState) : OpResult × SysState :=
  if quantity ≤ 0 then (.invalidParam, s)
  else
    let lev := leverage.getD (getLeverage s.futures ticker)
    if lev < 1 ∨ 150 < lev then (.invalidParam, s)
    else
      match fetchMarkPrice cryptoQ ticker with
      | none => (.networkError, s)
      | some markPrice =>
        let initialMargin := calcInitialMargin quantity markPrice lev
        if s.portfolio.cash < initialMargin then (.insufficientFunds, s)
        else
          let notional := quantity * markPrice
          let mmRate := calcMaintenanceMarginRate notional
          let liqPrice := calcLiquidationPrice markPrice lev mmRate side
          let position : FuturesPosition :=
            { id := s.nextId, ticker := ticker, side := side, quantity := quantity,
              entryPrice := markPrice, markPrice := markPrice, leverage := lev,
              initialMargin := initialMargin,
              maintenanceMargin := calcMaintenanceMargin quantity markPrice mmRate,
              marginBalance := initialMargin, liquidationPrice := liqPrice,
              maintenanceMarginRate := mmRate, unrealizedPnl := 0, roe := 0,
              realizedPnl := 0 }
          (.ok,
            { s with
              portfolio := adjustCash (-initialMargin) s.portfolio
              futures :=
                { s.futures with
                  positions := s.futures.positions ++ [position]
                  transactions := s.futures.transactions ++
                    [⟨if side = .long then .openLong else .openShort, ticker, quantity,
                      markPrice, some lev, none⟩] }
              nextId := s.nextId + 1 })

/-- `FuturesEngine.openLong`. -/
def openLong (cryptoQ : String → Option ℚ) (ticker : String) (quantity : ℚ)
    (leverage : Option ℚ) (s : SysState) : OpResult × SysState :=
  openPosition cryptoQ (strToUpper ticker) quantity .long leverage s

/-- `FuturesEngine.openShort`. -/
def openShort (cryptoQ : String → Option ℚ) (ticker : String) (quantity : ℚ)
    (leverage : Option ℚ) (s : SysState) : OpResult × SysState :=
  openPosition cryptoQ (strToUpper ticker) quantity .short leverage s

/-- `FuturesEngine.closePosition` (partial or full); returns the realized
P&L alongside the result kind. -/
def closePosition (cryptoQ : String → Option ℚ) (positionId : ℕ)
    (quantity : Option ℚ) (s : SysState) : (OpResult × Option ℚ) × SysState :=
  match s.futures.positions.find? fun p => p.id = positionId with
  | none => ((.notFound, none), s)
  | some pos =>
    let closeQty := quantity.getD pos.quantity
    if closeQty ≤ 0 then ((.invalidParam, none), s)
    else if pos.quantity < closeQty then ((.invalidParam, none), s)
    else
      match fetchMarkPrice cryptoQ pos.ticker with
      | none => ((.networkError, none), s)
      | some markPrice =>
        let pnl := calcUnrealizedPnl pos.side closeQty pos.entryPrice markPrice
        let marginReleased := closeQty / pos.quantity * pos.initialMargin
        let cashReturn := max 0 (marginReleased + pnl)
        let remaining := pos.quantity - closeQty
        let positions' :=
          if remaining = 0 then s.futures.positions.filter fun p => p.id ≠ positionId
          else
            updateFirstPos positionId
              { pos with
                quantity := remaining
                initialMargin := pos.initialMargin - marginReleased
                marginBalance := pos.initialMargin - marginReleased
                realizedPnl := pos.realizedPnl + pnl }
              s.futures.positions
        ((.ok, some pnl),
          { s with
            portfolio := adjustCash cashReturn s.portfolio
            futures :=
              { s.futures with
                positions := positions'
                transactions := s.futures.transactions ++
                  [⟨if pos.side = .long then .closeLong else .closeShort, pos.ticker,
                    closeQty, markPrice, none, some pnl⟩] } })

/-- `FuturesEngine.setLeverage`: range check first, then the open-position
check, then persist under the uppercased ticker. -/
def setLeverage (ticker : String) (leverage : ℚ) (s : SysState) :
    OpResult × SysState :=
  let normalized := (strToUpper ticker)
  if leverage < 1 ∨ 150 < leverage then (.invalidParam, s)
  else if s.futures.positions.any fun p => p.ticker = normalized then
    (.invariantViolation, s)
  else
    (.ok,
      { s with futures :=
          { s.futures with leverageSettings := setKey s.futures.leverageSettings normalized leverage } })

/-- The per-position refresh done by `FuturesEngine.getPositions`: update the
mark (keeping the last known price when the fetch fails), recompute
unrealized P&L, ROE, and the maintenance-margin rate and margin for the
current notional.  (The source fetches once per unique ticker; with a
deterministic oracle that equals fetching per position.) -/
def refreshFuturesPos (cryptoQ : String → Option ℚ) (p : FuturesPosition) :
    FuturesPosition :=
  let mp := (fetchMarkPrice cryptoQ p.ticker).getD p.markPrice
  let upnl := calcUnrealizedPnl p.side p.quantity p.entryPrice mp
  let mmRate := calcMaintenanceMarginRate (p.quantity * mp)
  { p with
    markPrice := mp
    unrealizedPnl := upnl
    roe := calcROE upnl p.initialMargin
    maintenanceMarginRate := mmRate
    maintenanceMargin := calcMaintenanceMargin p.quantity mp mmRate }

/-- `FuturesEngine.getPositions` (state effect only; the returned copy is the
new positions list). -/
def futuresGetPositions (cryptoQ : String → Option ℚ) (s : SysState) : SysState :=
  { s with futures :=
      { s.futures with positions := s.futures.positions.map (refreshFuturesPos cryptoQ) } }

/-- `FuturesEngine.liquidatePosition`: credit `max(0, marginBalance + pnl)`,
remove the position, record a `liquidation` transaction whose reported pnl is
floored at `-marginBalance`. -/
def liquidatePosition (positionId : ℕ) (markPrice : ℚ) (s : SysState) : SysState :=
  match s.futures.positions.find? fun p => p.id = positionId with
  | none => s
  | some pos =>
    let pnl := calcUnrealizedPnl pos.side pos.quantity pos.entryPrice markPrice
    let cashReturn := max 0 (pos.marginBalance + pnl)
    { s with
      portfolio := adjustCash cashReturn s.portfolio
      futures :=
        { s.futures with
          positions := s.futures.positions.filter fun p => p.id ≠ positionId
          transactions := s.futures.transactions ++
            [⟨.liquidation, pos.ticker, pos.quantity, markPrice, none,
              some (max (-pos.marginBalance) pnl)⟩] } }

/-! ## Options engine (src/src/options/options-engine.ts) -/

/-- `OptionsEngine.fetchUnderlyingPrice`: stock quote of the uppercased
underlying. -/
def fetchUnderlying (stockQ : String → Option ℚ) (ticker : String) : Option ℚ :=
  stockQ (strToUpper ticker)

/-- `OptionsEngine.buyOption`. -/
def buyOption (stockQ : String → Option ℚ) (sqrtFn : ℚ → ℚ) (now : ℚ)
    (expiryMs : String → ℚ) (ticker : String) (type : OptionType)
    (strikePrice : ℚ) (expiryDate : String) (contracts : ℚ) (s : SysState) :
    OpResult × SysState :=
  let underlying := (strToUpper ticker)
  if contracts ≤ 0 then (.invalidParam, s)
  else
    let dte := calcDaysToExpiry now expiryMs expiryDate
    if dte ≤ 0 then (.invalidParam, s)
    else
      match fetchUnderlying stockQ underlying with
      | none => (.networkError, s)
      | some currentPrice =>
        let iv := getImpliedVol underlying
        let premiumPerShare := calcPremium sqrtFn currentPrice strikePrice dte iv type
        let totalPremium := premiumPerShare * 100 * contracts
        if s.portfolio.cash < totalPremium then (.insufficientFunds, s)
        else
          let contract : OptionContract :=
            ⟨underlying, type, strikePrice, expiryDate, iv⟩
          let position : OptionPosition :=
            { id := s.nextId, contract := contract, contracts := contracts,
              premiumPaid := totalPremium, premiumPerShare := premiumPerShare,
              currentPremium := premiumPerShare, currentValue := totalPremium,
              unrealizedPnl := 0, unrealizedPnlPercent := 0, daysToExpiry := dte,
              expiryDate := expiryDate }
          (.ok,
            { s with
              portfolio := adjustCash (-totalPremium) s.portfolio
              options :=
                { positions := s.options.positions ++ [position]
                  transactions := s.options.transactions ++
                    [⟨if type = .call then .buyCall else .buyPut, underlying, strikePrice,
                      expiryDate, contracts, premiumPerShare, totalPremium, none⟩] }
              nextId := s.nextId + 1 })

/-- Replace the first option position with the given id. -/
def updateFirstOptPos (pid : ℕ) (replacement : OptionPosition) :
    List OptionPosition → List OptionPosition
  | [] => []
  | q :: rest =>
    if q.id = pid then replacement :: rest else q :: updateFirstOptPos pid replacement rest

/-- `OptionsEngine.sellOption` (early close, partial or full). -/
def sellOption (stockQ : String → Option ℚ) (sqrtFn : ℚ → ℚ) (now : ℚ)
    (expiryMs : String → ℚ) (positionId : ℕ) (contracts : Option ℚ)
    (s : SysState) : (OpResult × Option ℚ) × SysState :=
  match s.options.positions.find? fun p => p.id = positionId with
  | none => ((.notFound, none), s)
  | some pos =>
    let sellContracts := contracts.getD pos.contracts
    if sellContracts ≤ 0 then ((.invalidParam, none), s)
    else if pos.contracts < sellContracts then ((.invalidParam, none), s)
    else
      match fetchUnderlying stockQ pos.contract.underlying with
      | none => ((.networkError, none), s)
      | some currentPrice =>
        let dte := calcDaysToExpiry now expiryMs pos.expiryDate
        let currentPremium :=
          calcPremium sqrtFn currentPrice pos.contract.strikePrice dte
            pos.contract.impliedVol pos.contract.type
        let proceeds := currentPremium * 100 * sellContracts
        let costBasis := pos.premiumPaid / pos.contracts * sellContracts
        let pnl := proceeds - costBasis
        let remaining := pos.contracts - sellContracts
        let positions' :=
          if remaining = 0 then s.options.positions.filter fun p => p.id ≠ positionId
          else
            updateFirstOptPos positionId
              { pos with contracts := remaining, premiumPaid := pos.premiumPaid - costBasis }
              s.options.positions
        ((.ok, some pnl),
          { s with
            portfolio := adjustCash proceeds s.portfolio
            options :=
              { positions := positions'
                transactions := s.options.transactions ++
                  [⟨if pos.contract.type = .call then .sellCall else .sellPut,
                    pos.contract.underlying, pos.contract.strikePrice, pos.expiryDate,
                    sellContracts, currentPremium, proceeds, some pnl⟩] } })

/-- Settle one expired position inside the settlement loop body: price the
underlying (skip on failure), credit the settlement value when in the money,
record the expiry transaction, remove the position. -/
def settleOne (stockQ : String → Option ℚ) (st : SysState) (pos : OptionPosition) :
    SysState :=
  match fetchUnderlying stockQ pos.contract.underlying with
  | none => st
  | some currentPrice =>
    let intrinsic := calcIntrinsicValue currentPrice pos.contract.strikePrice pos.contract.type
    let settlementValue := intrinsic * 100 * pos.contracts
    let isITM := 0 < intrinsic
    { st with
      portfolio := if isITM then adjustCash settlementValue st.portfolio else st.portfolio
      options :=
        { positions := st.options.positions.filter fun p => p.id ≠ pos.id
          transactions := st.options.transactions ++
            [⟨if isITM then .expireItm else .expireOtm, pos.contract.underlying,
              pos.contract.strikePrice, pos.expiryDate, pos.contracts,
              if isITM then intrinsic else 0, settlementValue,
              some (settlementValue - pos.premiumPaid)⟩] } }

/-- `OptionsEngine.settleExpiredOptions`: snapshot the expired positions
(`now ≥ expiry instant`), return unchanged when there are none, otherwise
settle each in order. -/
def settleExpiredOptions (stockQ : String → Option ℚ) (now : ℚ)
    (expiryMs : String → ℚ) (s : SysState) : SysState :=
  let expired := s.options.positions.filter fun p => expiryMs p.expiryDate ≤ now
  if expired.isEmpty then s
  else expired.foldl (settleOne stockQ) s

/-- The per-position refresh done by `OptionsEngine.getPositions`: positions
whose underlying cannot be priced are left untouched. -/
def refreshOptionPos (stockQ : String → Option ℚ) (sqrtFn : ℚ → ℚ) (now : ℚ)
    (expiryMs : String → ℚ) (p : OptionPosition) : OptionPosition :=
  match fetchUnderlying stockQ p.contract.underlying with
  | none => p
  | some price =>
    let dte := calcDaysToExpiry now expiryMs p.expiryDate
    let premium :=
      calcPremium sqrtFn price p.contract.strikePrice dte p.contract.impliedVol
        p.contract.type
    let currentValue := premium * 100 * p.contracts
    { p with
      currentPremium := premium
      currentValue := currentValue
      unrealizedPnl := currentValue - p.premiumPaid
      unrealizedPnlPercent :=
        if 0 < p.premiumPaid then (currentValue - p.premiumPaid) / p.premiumPaid * 100 else 0
      daysToExpiry := dte }

/-- `OptionsEngine.getPositions` (state effect only). -/
def optionsGetPositions (stockQ : String → Option ℚ) (sqrtFn : ℚ → ℚ) (now : ℚ)
    (expiryMs : String → ℚ) (s : SysState) : SysState :=
  { s with options :=
      { s.options with
        positions := s.options.positions.map (refreshOptionPos stockQ sqrtFn now expiryMs) } }

/-! ## Snapshot aggregator day P/L (src/src/portfolio/index.ts, lines
130 and 273–286)

`getEnrichedSnapshot` aggregates `totalEquity` from the spot, futures and
options valuations; the day-P/L step receives that aggregate, so it is
embedded here with `totalEquity` as an input.  The step scans
`snapshot.dailySnapshots ?? []` where `snapshot = portfolio.getSnapshot()`
is the defensive copy taken at the top of the function — NOT the live
portfolio data — and then fire-and-forgets
`portfolio.recordDailySnapshot(totalEquity)` against the live data. -/

/-- `Portfolio.getSnapshot` (portfolio.ts lines 38–46): a copy built from
`cash`, `holdings`, `transactionHistory`, `holdingMeta` and `tickerTypes`
only.  The source object literal has no `dailySnapshots` field, and every
read of the copy goes through `?? []`, so the copy's snapshot history is
empty. -/
def getSnapshot (s : PortfolioData) : PortfolioData :=
  { cash := s.cash, holdings := s.holdings,
    transactionHistory := s.transactionHistory, tickerTypes := s.tickerTypes,
    dailySnapshots := [] }

/-- The `(pnlDay?, pnlDayPercent?)` pair the day-P/L block computes from a
snapshot history: the most recent entry whose date differs from today, the
difference against it, and the percentage guarded by `prevTotal > 0`. -/
def snapshotDayPnl (today : String) (snaps : List DailySnapshot)
    (totalEquity : ℚ) : Option ℚ × Option ℚ :=
  match snaps.reverse.find? fun e => e.date ≠ today with
  | none => (none, none)
  | some prev =>
    let pnlDay := totalEquity - prev.totalValue
    (some pnlDay,
      some (if 0 < prev.totalValue then pnlDay / prev.totalValue * 100 else 0))

/-- The full day-P/L step of `getEnrichedSnapshot`: the pair computed from
the `getSnapshot` copy's history, plus the fire-and-forget
`recordDailySnapshot(totalEquity)` state effect on the live data. -/
def enrichedSnapshotDayStep (today : String) (totalEquity : ℚ)
    (s : PortfolioData) : (Option ℚ × Option ℚ) × PortfolioData :=
  (snapshotDayPnl today (getSnapshot s).dailySnapshots totalEquity,
    recordDailySnapshot today totalEquity s)

/-! ## The operation alphabet

Every public mutating entry point of the three engines and the ledger, with
the oracles (quotes, clock, sqrt) carried as data of the operation;
`applyOps` then gives the set of reachable states.  Results are discarded
here; claims about results restate the individual operation. -/

inductive Op where
  | buySpot (ticker : String) (quantity price : ℚ) (assetType : Option AssetType)
  | sellSpot (ticker : String) (quantity price : ℚ)
  | execBuy (cryptoQ stockQ : String → Option ℚ) (ticker : String) (quantity : ℚ)
      (ty : Option AssetType)
  | execSell (cryptoQ stockQ : String → Option ℚ) (ticker : String) (quantity : ℚ)
      (ty : Option AssetType)
  | adjust (delta : ℚ)
  | resetP (cash : ℚ)
  | record (today : String) (totalValue : ℚ)
  | fOpenLong (cryptoQ : String → Option ℚ) (ticker : String) (quantity : ℚ)
      (leverage : Option ℚ)
  | fOpenShort (cryptoQ : String → Option ℚ) (ticker : String) (quantity : ℚ)
      (leverage : Option ℚ)
  | fClose (cryptoQ : String → Option ℚ) (id : ℕ) (quantity : Option ℚ)
  | fSetLeverage (ticker : String) (leverage : ℚ)
  | fGetPositions (cryptoQ : String → Option ℚ)
  | fLiquidate (id : ℕ) (markPrice : ℚ)
  | oBuy (stockQ : String → Option ℚ) (sqrtFn : ℚ → ℚ) (now : ℚ)
      (expiryMs : String → ℚ) (ticker : String) (type : OptionType) (strike : ℚ)
      (expiry : String) (contracts : ℚ)
  | oSell (stockQ : String → Option ℚ) (sqrtFn : ℚ → ℚ) (now : ℚ)
      (expiryMs : String → ℚ) (id : ℕ) (contracts : Option ℚ)
  | oSettle (stockQ : String → Option ℚ) (now : ℚ) (expiryMs : String → ℚ)
  | oGetPositions (stockQ : String → Option ℚ) (sqrtFn : ℚ → ℚ) (now : ℚ)
      (expiryMs : String → ℚ)

/-- Interpret one operation as a state transformer. -/
def step (op : Op) (s : SysState) : SysState :=
  match op with
  | .buySpot t q p a => { s with portfolio := (buyStock t q p a s.portfolio).2 }
  | .sellSpot t q p => { s with portfolio := (sellStock t q p s.portfolio).2 }
  | .execBuy cq sq t q ty => { s with portfolio := (executeBuy cq sq t q ty s.portfolio).2 }
  | .execSell cq sq t q ty => { s with portfolio := (executeSell cq sq t q ty s.portfolio).2 }
  | .adjust d => { s with portfolio := adjustCash d s.portfolio }
  | .resetP c => { s with portfolio := resetPortfolio c s.portfolio }
  | .record t v => { s with portfolio := recordDailySnapshot t v s.portfolio }
  | .fOpenLong cq t q l => (openLong cq t q l s).2
  | .fOpenShort cq t q l => (openShort cq t q l s).2
  | .fClose cq pid q => (closePosition cq pid q s).2
  | .fSetLeverage t l => (setLeverage t l s).2
  | .fGetPositions cq => futuresGetPositions cq s
  | .fLiquidate pid mp => liquidatePosition pid mp s
  | .oBuy sq f n e t ty k x c => (buyOption sq f n e t ty k x c s).2
  | .oSell sq f n e pid c => (sellOption sq f n e pid c s).2
  | .oSettle sq n e => settleExpiredOptions sq n e s
  | .oGetPositions sq f n e => optionsGetPositions sq f n e s

/-- Run a sequence of operations from a starting state. -/
def applyOps (ops : List Op) (s : SysState) : SysState :=
  ops.foldl (fun st op => step op st) s

/-! ## General lemmas -/

theorem updateFirstSnap_length (today : String) (tv : ℚ) (l : List DailySnapshot) :
    (updateFirstSnap today tv l).length = l.length := by
  induction l with
  | nil => rfl
  | cons e rest ih =>
    by_cases h : e.date = today <;> simp [updateFirstSnap, h, ih]

theorem mem_updateFirstSnap (today : String) (tv : ℚ) (l : List DailySnapshot)
    (h : (l.find? fun e => e.date = today).isSome) :
    (⟨today, tv⟩ : DailySnapshot) ∈ updateFirstSnap today tv l := by
  induction l with
  | nil => simp [List.find?] at h
  | cons e rest ih =>
    by_cases he : e.date = today
    · simp [updateFirstSnap, he]
    · rw [List.find?_cons_of_neg _ (by simp [he])] at h
      simp only [updateFirstSnap, if_neg he]
      exact List.mem_cons_of_mem _ (ih h)

/-- After `recordDailySnapshot`, today's entry with the recorded value is
present, provided at most 90 snapshots were stored beforehand (the invariant
the 90-cap maintains). -/
theorem mem_recordDailySnapshot (today : String) (tv : ℚ) (s : PortfolioData)
    (hlen : s.dailySnapshots.length ≤ 90) :
    (⟨today, tv⟩ : DailySnapshot) ∈ (recordDailySnapshot today tv s).dailySnapshots := by
  simp only [recordDailySnapshot]
  by_cases hfind : (s.dailySnapshots.find? fun e => e.date = today).isSome
  · have hl : (updateFirstSnap today tv s.dailySnapshots).length = s.dailySnapshots.length :=
      updateFirstSnap_length today tv s.dailySnapshots
    have hcap : ¬(90 < (updateFirstSnap today tv s.dailySnapshots).length) := by omega
    rw [if_pos hfind, if_neg hcap]
    exact mem_updateFirstSnap today tv s.dailySnapshots hfind
  · rw [if_neg hfind]
    by_cases hcap : 90 < (s.dailySnapshots ++ [(⟨today, tv⟩ : DailySnapshot)]).length
    · have hd : (s.dailySnapshots ++ [(⟨today, tv⟩ : DailySnapshot)]).length - 90 ≤
          s.dailySnapshots.length := by
        simp only [List.length_append, List.length_singleton]
        omega
      rw [if_pos hcap, List.drop_append_of_le_length hd]
      exact List.mem_append_right _ (List.mem_singleton.mpr rfl)
    · rw [if_neg hcap]
      exact List.mem_append_right _ (List.mem_singleton.mpr rfl)

/-! ## Claim C1 — snapshot day P/L -/

/-- C1 (code bug): the day-P/L step of `getEnrichedSnapshot` can never
return `pnlDay`/`pnlDayPercent`.  It scans the defensive copy returned by
`Portfolio.getSnapshot`, whose `dailySnapshots` field is always absent, so
the scan for a previous snapshot always sees an empty history — for every
portfolio state and total equity, including the claim's own scenario of a
stored snapshot dated before today with a positive total value.  The
fire-and-forget `recordDailySnapshot` still updates the live history, so the
stored history grows while the returned day P/L stays permanently absent. -/
theorem enrichedSnapshot_dayPnl_dead :
    (∀ (today : String) (totalEquity : ℚ) (s : PortfolioData),
        (getSnapshot s).dailySnapshots = [] ∧
        (enrichedSnapshotDayStep today totalEquity s).1 = (none, none))
    ∧ ((("2024-01-01" : String) < "2024-01-02") ∧
        (enrichedSnapshotDayStep "2024-01-02" 101000
          ⟨101000, [], [], [], [⟨"2024-01-01", 100000⟩]⟩).1 = (none, none) ∧
        (⟨"2024-01-02", 101000⟩ : DailySnapshot) ∈
          (enrichedSnapshotDayStep "2024-01-02" 101000
            ⟨101000, [], [], [], [⟨"2024-01-01", 100000⟩]⟩).2.dailySnapshots) := by
  refine ⟨fun today totalEquity s => ⟨rfl, rfl⟩, compare_gt_iff_gt.mp rfl, rfl, ?_⟩
  exact mem_recordDailySnapshot "2024-01-02" 101000
    ⟨101000, [], [], [], [⟨"2024-01-01", 100000⟩]⟩ (by simp)

/-! ## Claim C2 — bulk quote fetching -/

/-- C2 counterexample: for the crypto (Binance) provider with an empty cache,
a failing bulk request fails the whole `fetchQuotes` call with NetworkError —
the claim says a bulk call never fails, for every provider. -/
theorem binance_bulk_fails_ce :
    binanceFetchQuotes (fun _ => none) (fun _ => none) ["BTCUSDT"] =
      .error .networkError := rfl

/-- C2 (amended): the stock (Yahoo) provider's `fetchQuotes` returns an entry
for every requested symbol, `price = 0` for a symbol whose individual fetch
fails, and never fails as a whole; a single-symbol `fetchQuote` failure fails
with NetworkError on both providers; but the crypto (Binance) provider's
`fetchQuotes` makes one bulk request and fails as a whole when that request
fails. -/
theorem fetchQuotes_batch_behaviour :
    (∀ (cache fetch1 : String → Option ℚ) (symbols : List String) (sym : String),
        sym ∈ symbols →
        ∃ p, (strToUpper sym, p) ∈ stockFetchQuotes cache fetch1 symbols ∧
          (cache (strToUpper sym) = none → fetch1 (strToUpper sym) = none → p = 0))
    ∧ (∀ (cache fetch1 : String → Option ℚ) (sym : String),
        cache (strToUpper sym) = none → fetch1 (strToUpper sym) = none →
        stockFetchQuote cache fetch1 sym = .error .networkError)
    ∧ (∀ (cache fetch1 : String → Option ℚ) (sym : String),
        cache (strToUpper sym) = none → fetch1 (strToUpper sym) = none →
        binanceFetchQuote cache fetch1 sym = .error .networkError)
    ∧ (∀ (cache : String → Option ℚ) (bulk : List String → Option (List (String × ℚ)))
        (symbols : List String),
        toFetchOf cache symbols ≠ [] → bulk (toFetchOf cache symbols) = none →
        binanceFetchQuotes cache bulk symbols = .error .networkError) := by
  refine ⟨?_, ?_, ?_, ?_⟩
  · intro cache fetch1 symbols sym hmem
    cases hc : cache (strToUpper sym) with
    | some p =>
      refine ⟨p, List.mem_append_left _ ?_, ?_⟩
      · exact List.mem_filterMap.mpr ⟨sym, hmem, by simp [hc]⟩
      · intro h
        simp [hc] at h
    | none =>
      have htf : strToUpper sym ∈ toFetchOf cache symbols :=
        List.mem_filterMap.mpr ⟨sym, hmem, by simp [hc]⟩
      cases hf : fetch1 (strToUpper sym) with
      | some p =>
        refine ⟨p, List.mem_append_right _ ?_, ?_⟩
        · exact List.mem_map.mpr ⟨strToUpper sym, htf, by simp [fetchCachedKey, hc, hf]⟩
        · intro _ h
          simp [hf] at h
      | none =>
        refine ⟨0, List.mem_append_right _ ?_, fun _ _ => rfl⟩
        exact List.mem_map.mpr ⟨strToUpper sym, htf, by simp [fetchCachedKey, hc, hf]⟩
  · intro cache fetch1 sym h1 h2
    simp [stockFetchQuote, fetchCachedKey, h1, h2]
  · intro cache fetch1 sym h1 h2
    simp [binanceFetchQuote, fetchCachedKey, h1, h2]
  · intro cache bulk symbols hne hnone
    unfold binanceFetchQuotes
    cases h : toFetchOf cache symbols with
    | nil => exact absurd h hne
    | cons a t =>
      rw [h] at hnone
      simp [h, hnone]

/-- C2 witness: with an empty cache and an all-failing fetch oracle, the
stock bulk call still returns an entry (`price = 0`) for the one requested
symbol, the single-quote calls fail with NetworkError, and the Binance bulk
call fails as a whole. -/
theorem fetchQuotes_batch_witness :
    (∃ p, (strToUpper "nvda", p) ∈
        stockFetchQuotes (fun _ => none) (fun _ => none) ["nvda"] ∧
        ((fun _ => (none : Option ℚ)) (strToUpper "nvda") = none →
          (fun _ => (none : Option ℚ)) (strToUpper "nvda") = none → p = 0)) ∧
      stockFetchQuote (fun _ => none) (fun _ => none) "nvda" = .error .networkError ∧
      binanceFetchQuotes (fun _ => none) (fun _ => none) ["ETHUSDT"] =
        .error .networkError :=
  ⟨fetchQuotes_batch_behaviour.1 _ _ ["nvda"] "nvda" (by simp),
    fetchQuotes_batch_behaviour.2.1 _ _ "nvda" rfl rfl,
    fetchQuotes_batch_behaviour.2.2.2 _ _ ["ETHUSDT"] (by decide) rfl⟩

/-! ## Claim C8 — option premium at expiry -/

/-- C8: the time value is 0 whenever `daysToExpiry ≤ 0`, so the premium at
expiry equals the intrinsic value exactly; in particular
`premium(100, 110, 0, 0.35, call) = 0` and
`premium(100, 90, 0, 0.35, call) = 10`, for every `Math.sqrt`
implementation. -/
theorem premium_at_expiry_eq_intrinsic :
    (∀ (sqrtFn : ℚ → ℚ) (S iv dte : ℚ), dte ≤ 0 → calcTimeValue sqrtFn S iv dte = 0)
    ∧ (∀ (sqrtFn : ℚ → ℚ) (S K dte iv : ℚ) (ty : OptionType), dte ≤ 0 →
        calcPremium sqrtFn S K dte iv ty = calcIntrinsicValue S K ty)
    ∧ (∀ sqrtFn : ℚ → ℚ, calcPremium sqrtFn 100 110 0 0.35 .call = 0)
    ∧ (∀ sqrtFn : ℚ → ℚ, calcPremium sqrtFn 100 90 0 0.35 .call = 10) := by
  have htv : ∀ (sqrtFn : ℚ → ℚ) (S iv dte : ℚ), dte ≤ 0 →
      calcTimeValue sqrtFn S iv dte = 0 := by
    intro f S iv dte h
    simp [calcTimeValue, h]
  refine ⟨htv, ?_, ?_, ?_⟩
  · intro f S K dte iv ty h
    rw [calcPremium, htv f S iv dte h, add_zero]
  · intro f
    rw [calcPremium, htv f 100 0.35 0 le_rfl, add_zero, calcIntrinsicValue]
    rw [max_eq_right (by norm_num)]
  · intro f
    rw [calcPremium, htv f 100 0.35 0 le_rfl, add_zero, calcIntrinsicValue]
    rw [max_eq_left (by norm_num)]
    norm_num

/-- C8 witness: the two concrete premium evaluations and a time value at a
strictly negative `dte`, instantiated with the identity standing in for
`Math.sqrt`. -/
theorem premium_at_expiry_witness :
    calcPremium (fun x => x) 100 110 0 0.35 .call = 0
    ∧ calcPremium (fun x => x) 100 90 0 0.35 .call = 10
    ∧ calcTimeValue (fun x => x) 100 0.35 (-3) = 0 :=
  ⟨premium_at_expiry_eq_intrinsic.2.2.1 _,
    premium_at_expiry_eq_intrinsic.2.2.2 _,
    premium_at_expiry_eq_intrinsic.1 _ 100 0.35 (-3) (by norm_num)⟩

/-! ## Claim C9 — setLeverage -/

/-- C9 counterexample: on the default state (no open positions at all),
`setLeverage("BTC", 200)` is rejected, so "rejected iff an open position
exists for that ticker" fails. -/
theorem setLeverage_rejected_without_position_ce :
    (setLeverage "BTC" 200 init).1 ≠ .ok ∧ init.futures.positions = [] := by
  refine ⟨?_, rfl⟩
  have he : setLeverage "BTC" 200 init = (.invalidParam, init) := by
    norm_num [setLeverage, init]
  rw [he]
  exact fun h => OpResult.noConfusion h

/-- C9 (amended): `setLeverage` fails with InvalidParam when the leverage is
outside [1, 150] (this check runs first and takes precedence); otherwise it
fails with Invariant when an open position exists for the uppercased ticker;
otherwise it succeeds and persists `leverageSettings[ticker] = lev`; and it
is rejected iff the leverage is out of range or such a position exists. -/
theorem setLeverage_spec (s : SysState) (ticker : String) (lev : ℚ) :
    ((lev < 1 ∨ 150 < lev) → setLeverage ticker lev s = (.invalidParam, s))
    ∧ (1 ≤ lev → lev ≤ 150 →
        (∃ p ∈ s.futures.positions, p.ticker = strToUpper ticker) →
        setLeverage ticker lev s = (.invariantViolation, s))
    ∧ (1 ≤ lev → lev ≤ 150 →
        (∀ p ∈ s.futures.positions, p.ticker ≠ strToUpper ticker) →
        (setLeverage ticker lev s).1 = .ok ∧
        lookupKey (setLeverage ticker lev s).2.futures.leverageSettings
          (strToUpper ticker) = some lev)
    ∧ ((setLeverage ticker lev s).1 ≠ .ok ↔
        (lev < 1 ∨ 150 < lev ∨ ∃ p ∈ s.futures.positions, p.ticker = strToUpper ticker)) := by
  by_cases hr : lev < 1 ∨ 150 < lev
  · have he : setLeverage ticker lev s = (.invalidParam, s) := by
      simp [setLeverage, hr]
    refine ⟨fun _ => he, ?_, ?_, ?_⟩
    · intro h1 h2 _
      exfalso
      rcases hr with hr | hr
      · exact absurd h1 (not_le.mpr hr)
      · exact absurd h2 (not_le.mpr hr)
    · intro h1 h2 _
      exfalso
      rcases hr with hr | hr
      · exact absurd h1 (not_le.mpr hr)
      · exact absurd h2 (not_le.mpr hr)
    · rw [he]
      constructor
      · intro _
        rcases hr with hr | hr
        · exact Or.inl hr
        · exact Or.inr (Or.inl hr)
      · intro _ h
        exact OpResult.noConfusion h
  · by_cases hp : ∃ p ∈ s.futures.positions, p.ticker = strToUpper ticker
    · have hany : (s.futures.positions.any fun p => p.ticker = strToUpper ticker) = true := by
        rw [List.any_eq_true]
        obtain ⟨p, hmem, hpt⟩ := hp
        exact ⟨p, hmem, by simp [hpt]⟩
      have he : setLeverage ticker lev s = (.invariantViolation, s) := by
        simp [setLeverage, hr, hany]
      refine ⟨fun h => absurd h hr, fun _ _ _ => he, ?_, ?_⟩
      · intro _ _ hall
        obtain ⟨p, hmem, hpt⟩ := hp
        exact absurd hpt (hall p hmem)
      · rw [he]
        exact ⟨fun _ => Or.inr (Or.inr hp), fun _ h => OpResult.noConfusion h⟩
    · have hany : (s.futures.positions.any fun p => p.ticker = strToUpper ticker) = false := by
        rw [List.any_eq_false]
        intro p hmem
        simp only [decide_eq_true_eq]
        intro hpt
        exact hp ⟨p, hmem, hpt⟩
      have he : setLeverage ticker lev s =
          (.ok, { s with futures := { s.futures with
            leverageSettings := setKey s.futures.leverageSettings (strToUpper ticker) lev } }) := by
        simp [setLeverage, hr, hany]
      refine ⟨fun h => absurd h hr, fun _ _ h => absurd h hp, ?_, ?_⟩
      · intro _ _ _
        rw [he]
        exact ⟨rfl, lookupKey_setKey_self _ _ _⟩
      · rw [he]
        constructor
        · intro h
          exact absurd rfl h
        · rintro (h | h | h)
          · exact absurd h (not_or.mp hr).1
          · exact absurd h (not_or.mp hr).2
          · exact absurd h hp

/-- C9 witness: on the default state, `setLeverage("btc", 30)` succeeds and
persists `leverageSettings["BTC"] = 30`; `setLeverage("BTC", 200)` is
rejected with InvalidParam. -/
theorem setLeverage_spec_witness :
    ((setLeverage "btc" 30 init).1 = .ok ∧
      lookupKey (setLeverage "btc" 30 init).2.futures.leverageSettings
        (strToUpper "btc") = some 30) ∧
      setLeverage "BTC" 200 init = (.invalidParam, init) :=
  ⟨(setLeverage_spec init "btc" 30).2.2.1 (by norm_num) (by norm_num)
      (by intro p h; simp [init] at h),
    (setLeverage_spec init "BTC" 200).1 (by norm_num)⟩

/-! ## Claim C10 — partial spot sells drop the assetClass -/

/-- C10: a successful partial `sellStock` leaves the surviving holding with
only the reduced quantity and the original average price; the previously
stored `assetClass` is dropped. -/
theorem sellStock_partial_drops_assetClass (s : PortfolioData) (ticker : String)
    (held avg qty price : ℚ) (ac : AssetClass)
    (hlook : lookupKey s.holdings ticker = some ⟨held, avg, some ac⟩)
    (hq : 0 < qty) (hlt : qty < held) (hp : 0 < price) :
    (sellStock ticker qty price s).1 = .ok ∧
      lookupKey (sellStock ticker qty price s).2.holdings ticker =
        some ⟨held - qty, avg, none⟩ := by
  have h1 : ¬(qty ≤ 0 ∨ price ≤ 0) := by
    push_neg
    exact ⟨hq, hp⟩
  have h2 : ¬(held < qty) := not_lt.mpr hlt.le
  have h3 : ¬(held - qty = 0) := sub_ne_zero.mpr (ne_of_gt hlt)
  constructor
  · simp [sellStock, if_neg h1, hlook, if_neg h2, if_neg h3]
  · simp only [sellStock, if_neg h1, hlook, if_neg h2, if_neg h3]
    exact lookupKey_setKey_self _ _ _

/-- C10 witness: selling 5 of 20 AAPL held with `assetClass = us_stock_spot`
leaves `{quantity = 15, averagePrice = 155}` with no assetClass. -/
theorem sellStock_partial_witness :
    (sellStock "AAPL" 5 160
        { cash := 0, holdings := [("AAPL", ⟨20, 155, some .usStockSpot⟩)],
          transactionHistory := [], tickerTypes := [], dailySnapshots := [] }).1 = .ok ∧
      lookupKey (sellStock "AAPL" 5 160
        { cash := 0, holdings := [("AAPL", ⟨20, 155, some .usStockSpot⟩)],
          transactionHistory := [], tickerTypes := [], dailySnapshots := [] }).2.holdings
        "AAPL" = some ⟨20 - 5, 155, none⟩ :=
  sellStock_partial_drops_assetClass _ "AAPL" 20 155 5 160 .usStockSpot
    (by simp [lookupKey]) (by norm_num) (by norm_num) (by norm_num)

/-! ## Claim C7 — quote failure never mutates state -/

theorem invalidParam_ne_ok : OpResult.invalidParam ≠ OpResult.ok :=
  fun h => OpResult.noConfusion h

theorem networkError_ne_ok : OpResult.networkError ≠ OpResult.ok :=
  fun h => OpResult.noConfusion h

theorem notFound_ne_ok : OpResult.notFound ≠ OpResult.ok :=
  fun h => OpResult.noConfusion h

/-- C7: with a failing quote oracle (every fetch throws), each public trading
operation — `executeBuy`, `executeSell`, `openLong`, `openShort`,
`closePosition`, `buyOption`, `sellOption` — reports failure and leaves the
entire state (portfolio cash, holdings, transaction history, and both
engines' positions and transactions) unchanged. -/
theorem quote_failure_no_mutation :
    (∀ (ticker : String) (qty : ℚ) (ty : Option AssetType) (s : PortfolioData),
        (executeBuy (fun _ => none) (fun _ => none) ticker qty ty s).1 ≠ .ok ∧
        (executeBuy (fun _ => none) (fun _ => none) ticker qty ty s).2 = s)
    ∧ (∀ (ticker : String) (qty : ℚ) (ty : Option AssetType) (s : PortfolioData),
        (executeSell (fun _ => none) (fun _ => none) ticker qty ty s).1 ≠ .ok ∧
        (executeSell (fun _ => none) (fun _ => none) ticker qty ty s).2 = s)
    ∧ (∀ (ticker : String) (qty : ℚ) (lev : Option ℚ) (s : SysState),
        (openLong (fun _ => none) ticker qty lev s).1 ≠ .ok ∧
        (openLong (fun _ => none) ticker qty lev s).2 = s)
    ∧ (∀ (ticker : String) (qty : ℚ) (lev : Option ℚ) (s : SysState),
        (openShort (fun _ => none) ticker qty lev s).1 ≠ .ok ∧
        (openShort (fun _ => none) ticker qty lev s).2 = s)
    ∧ (∀ (pid : ℕ) (qty : Option ℚ) (s : SysState),
        (closePosition (fun _ => none) pid qty s).1.1 ≠ .ok ∧
        (closePosition (fun _ => none) pid qty s).2 = s)
    ∧ (∀ (sqrtFn : ℚ → ℚ) (now : ℚ) (expiryMs : String → ℚ) (ticker : String)
        (ty : OptionType) (strike : ℚ) (expiry : String) (contracts : ℚ) (s : SysState),
        (buyOption (fun _ => none) sqrtFn now expiryMs ticker ty strike expiry contracts s).1 ≠ .ok ∧
        (buyOption (fun _ => none) sqrtFn now expiryMs ticker ty strike expiry contracts s).2 = s)
    ∧ (∀ (sqrtFn : ℚ → ℚ) (now : ℚ) (expiryMs : String → ℚ) (pid : ℕ)
        (contracts : Option ℚ) (s : SysState),
        (sellOption (fun _ => none) sqrtFn now expiryMs pid contracts s).1.1 ≠ .ok ∧
        (sellOption (fun _ => none) sqrtFn now expiryMs pid contracts s).2 = s) := by
  have hexec : ∀ (ticker : String) (qty : ℚ) (ty : Option AssetType) (s : PortfolioData),
      executeBuy (fun _ => none) (fun _ => none) ticker qty ty s =
        ((if qty ≤ 0 then OpResult.invalidParam else .networkError), s) ∧
      executeSell (fun _ => none) (fun _ => none) ticker qty ty s =
        ((if qty ≤ 0 then OpResult.invalidParam else .networkError), s) := by
    intro ticker qty ty s
    by_cases hq : qty ≤ 0
    · simp [executeBuy, executeSell, hq]
    · cases haty : ty.getD (getTickerType (strToUpper ticker) s) with
      | stock => simp [executeBuy, executeSell, hq, haty, fetchPrice]
      | crypto => simp [executeBuy, executeSell, hq, haty, fetchPrice]
  have hsplit : ∀ (q : ℚ), (if q ≤ 0 then OpResult.invalidParam else .networkError) ≠ .ok := by
    intro q
    split
    · exact invalidParam_ne_ok
    · exact networkError_ne_ok
  refine ⟨?_, ?_, ?_, ?_, ?_, ?_, ?_⟩
  · intro t q ty s
    rw [(hexec t q ty s).1]
    exact ⟨hsplit q, rfl⟩
  · intro t q ty s
    rw [(hexec t q ty s).2]
    exact ⟨hsplit q, rfl⟩
  · intro t q lv s
    unfold openLong openPosition
    by_cases hq : q ≤ 0
    · rw [if_pos hq]
      exact ⟨invalidParam_ne_ok, by trivial⟩
    · rw [if_neg hq]
      by_cases hl : (lv.getD (getLeverage s.futures (strToUpper t))) < 1 ∨
          150 < (lv.getD (getLeverage s.futures (strToUpper t)))
      · simp only [if_pos hl]
        exact ⟨invalidParam_ne_ok, by trivial⟩
      · simp only [if_neg hl]
        exact ⟨networkError_ne_ok, by trivial⟩
  · intro t q lv s
    unfold openShort openPosition
    by_cases hq : q ≤ 0
    · rw [if_pos hq]
      exact ⟨invalidParam_ne_ok, by trivial⟩
    · rw [if_neg hq]
      by_cases hl : (lv.getD (getLeverage s.futures (strToUpper t))) < 1 ∨
          150 < (lv.getD (getLeverage s.futures (strToUpper t)))
      · simp only [if_pos hl]
        exact ⟨invalidParam_ne_ok, by trivial⟩
      · simp only [if_neg hl]
        exact ⟨networkError_ne_ok, by trivial⟩
  · intro pid qty s
    unfold closePosition
    cases hf : s.futures.positions.find? fun p => p.id = pid with
    | none =>
      simp only [hf]
      exact ⟨notFound_ne_ok, by trivial⟩
    | some pos =>
      simp only [hf]
      by_cases h1 : qty.getD pos.quantity ≤ 0
      · simp only [if_pos h1]
        exact ⟨invalidParam_ne_ok, by trivial⟩
      · simp only [if_neg h1]
        by_cases h2 : pos.quantity < qty.getD pos.quantity
        · simp only [if_pos h2]
          exact ⟨invalidParam_ne_ok, by trivial⟩
        · simp only [if_neg h2]
          exact ⟨networkError_ne_ok, by trivial⟩
  · intro f n e t ty k x c s
    unfold buyOption
    by_cases hc : c ≤ 0
    · simp only [if_pos hc]
      exact ⟨invalidParam_ne_ok, by trivial⟩
    · simp only [if_neg hc]
      by_cases hd : calcDaysToExpiry n e x ≤ 0
      · simp only [if_pos hd]
        exact ⟨invalidParam_ne_ok, by trivial⟩
      · simp only [if_neg hd]
        exact ⟨networkError_ne_ok, by trivial⟩
  · intro f n e pid c s
    unfold sellOption
    cases hf : s.options.positions.find? fun p => p.id = pid with
    | none =>
      simp only [hf]
      exact ⟨notFound_ne_ok, by trivial⟩
    | some pos =>
      simp only [hf]
      by_cases h1 : c.getD pos.contracts ≤ 0
      · simp only [if_pos h1]
        exact ⟨invalidParam_ne_ok, by trivial⟩
      · simp only [if_neg h1]
        by_cases h2 : pos.contracts < c.getD pos.contracts
        · simp only [if_pos h2]
          exact ⟨invalidParam_ne_ok, by trivial⟩
        · simp only [if_neg h2]
          exact ⟨networkError_ne_ok, by trivial⟩

/-! ## Claim C4 — open/close round trip at an unchanged mark price -/

theorem calcUnrealizedPnl_self (side : Side) (q P : ℚ) :
    calcUnrealizedPnl side q P P = 0 := by
  cases side <;> simp [calcUnrealizedPnl]

/-- The futures position record created by a successful `openPosition` at
mark price `P` (named for reuse in the round-trip proof; definitionally the
record `openPosition` pushes). -/
def openedFuturesPosition (pid : ℕ) (T : String) (side : Side) (qty P lev : ℚ) :
    FuturesPosition :=
  { id := pid, ticker := T, side := side, quantity := qty, entryPrice := P,
    markPrice := P, leverage := lev, initialMargin := calcInitialMargin qty P lev,
    maintenanceMargin := calcMaintenanceMargin qty P (calcMaintenanceMarginRate (qty * P)),
    marginBalance := calcInitialMargin qty P lev,
    liquidationPrice := calcLiquidationPrice P lev (calcMaintenanceMarginRate (qty * P)) side,
    maintenanceMarginRate := calcMaintenanceMarginRate (qty * P),
    unrealizedPnl := 0, roe := 0, realizedPnl := 0 }

theorem find?_append_eq_self {α : Type} (f : α → ℕ) (l : List α) (x : α) (n : ℕ)
    (hid : f x = n) (hfresh : ∀ p ∈ l, f p ≠ n) :
    ((l ++ [x]).find? fun p => f p = n) = some x := by
  rw [List.find?_append]
  have h1 : (l.find? fun p => f p = n) = none := by
    rw [List.find?_eq_none]
    intro p hmem
    simp [hfresh p hmem]
  rw [h1]
  simp [List.find?, hid]

theorem filter_append_ne {α : Type} (f : α → ℕ) (l : List α) (x : α) (n : ℕ)
    (hid : f x = n) (hfresh : ∀ p ∈ l, f p ≠ n) :
    ((l ++ [x]).filter fun p => f p ≠ n) = l := by
  rw [List.filter_append]
  have h1 : (l.filter fun p => f p ≠ n) = l := by
    rw [List.filter_eq_self]
    intro p hmem
    simp [hfresh p hmem]
  have h2 : ([x].filter fun p => f p ≠ n) = [] := by
    simp [List.filter, hid]
  rw [h1, h2, List.append_nil]

/-- The round-trip property for the shared open body, any side. -/
theorem openPosition_round_trip (s : SysState) (cq : String → Option ℚ)
    (T : String) (qty lev P : ℚ) (side : Side)
    (hP : cq (toBinanceSymbol T) = some P) (hPpos : 0 < P) (hq : 0 < qty)
    (hl1 : 1 ≤ lev) (hl2 : lev ≤ 150)
    (hcash : calcInitialMargin qty P lev ≤ s.portfolio.cash)
    (hfresh : ∀ p ∈ s.futures.positions, p.id ≠ s.nextId) :
    (openPosition cq T qty side (some lev) s).1 = .ok ∧
    (closePosition cq s.nextId none (openPosition cq T qty side (some lev) s).2).1.1 = .ok ∧
    (closePosition cq s.nextId none (openPosition cq T qty side (some lev) s).2).1.2 = some 0 ∧
    (closePosition cq s.nextId none
        (openPosition cq T qty side (some lev) s).2).2.portfolio.cash = s.portfolio.cash ∧
    (closePosition cq s.nextId none
        (openPosition cq T qty side (some lev) s).2).2.futures.positions =
      s.futures.positions := by
  have hq' : ¬(qty ≤ 0) := not_le.mpr hq
  have hl' : ¬(lev < 1 ∨ 150 < lev) := by
    push_neg
    exact ⟨hl1, hl2⟩
  have hlev0 : (0 : ℚ) < lev := lt_of_lt_of_le one_pos hl1
  have hIMpos : 0 < calcInitialMargin qty P lev :=
    div_pos (mul_pos hq hPpos) hlev0
  have hc' : ¬(s.portfolio.cash < calcInitialMargin qty P lev) := not_lt.mpr hcash
  have hcashpos : 0 ≤ s.portfolio.cash := le_trans hIMpos.le hcash
  -- the state after a successful open
  have hopen : openPosition cq T qty side (some lev) s =
      (.ok,
        { s with
          portfolio := adjustCash (-(calcInitialMargin qty P lev)) s.portfolio
          futures :=
            { s.futures with
              positions := s.futures.positions ++ [openedFuturesPosition s.nextId T side qty P lev]
              transactions := s.futures.transactions ++
                [⟨if side = .long then .openLong else .openShort, T, qty, P,
                  some lev, none⟩] }
          nextId := s.nextId + 1 }) := by
    simp only [openPosition, if_neg hq', Option.getD_some, if_neg hl', fetchMarkPrice, hP,
      if_neg hc', openedFuturesPosition]
  rw [hopen]
  refine ⟨rfl, ?_⟩
  have hpnl : calcUnrealizedPnl side qty P P = 0 := calcUnrealizedPnl_self side qty P
  have hrel : qty / qty * calcInitialMargin qty P lev = calcInitialMargin qty P lev := by
    rw [div_self (ne_of_gt hq), one_mul]
  have hrem : qty - qty = 0 := sub_self qty
  have hfind := find?_append_eq_self FuturesPosition.id s.futures.positions
    (openedFuturesPosition s.nextId T side qty P lev) s.nextId rfl hfresh
  have hfilter := filter_append_ne FuturesPosition.id s.futures.positions
    (openedFuturesPosition s.nextId T side qty P lev) s.nextId rfl hfresh
  simp only [closePosition, hfind]
  simp only [openedFuturesPosition] at hfilter ⊢
  simp only [Option.getD_none, if_neg hq', if_neg (lt_irrefl qty), fetchMarkPrice, hP,
    hpnl, hrel, hrem, if_pos rfl]
  refine ⟨by trivial, by trivial, ?_, ?_⟩
  · -- cash returns to its pre-open value
    show max 0 (max 0 (s.portfolio.cash + -(calcInitialMargin qty P lev)) +
        max 0 (calcInitialMargin qty P lev + 0)) = s.portfolio.cash
    have h1 : max 0 (s.portfolio.cash + -(calcInitialMargin qty P lev)) =
        s.portfolio.cash - calcInitialMargin qty P lev := by
      rw [← sub_eq_add_neg]
      exact max_eq_right (by linarith)
    have h2 : max 0 (calcInitialMargin qty P lev + 0) = calcInitialMargin qty P lev := by
      rw [add_zero]
      exact max_eq_right hIMpos.le
    rw [h1, h2]
    have h3 : s.portfolio.cash - calcInitialMargin qty P lev + calcInitialMargin qty P lev =
        s.portfolio.cash := by ring
    rw [h3]
    exact max_eq_right hcashpos
  · -- the freshly opened position is removed again, older positions untouched
    exact hfilter

/-- C4: opening a futures position (either side, any accepted quantity and
leverage, positive mark price `P`) and immediately closing it in full while
the mark is still `P` reports `pnl = 0`, restores the portfolio cash to its
pre-open value exactly, and removes the position.  `hfresh` says the fresh
position id is unused, which holds of every reachable state. -/
theorem futures_round_trip (s : SysState) (cq : String → Option ℚ)
    (ticker : String) (qty lev P : ℚ)
    (hP : cq (toBinanceSymbol (strToUpper ticker)) = some P) (hPpos : 0 < P)
    (hq : 0 < qty) (hl1 : 1 ≤ lev) (hl2 : lev ≤ 150)
    (hcash : calcInitialMargin qty P lev ≤ s.portfolio.cash)
    (hfresh : ∀ p ∈ s.futures.positions, p.id ≠ s.nextId) :
    ((openLong cq ticker qty (some lev) s).1 = .ok ∧
      (closePosition cq s.nextId none (openLong cq ticker qty (some lev) s).2).1.1 = .ok ∧
      (closePosition cq s.nextId none (openLong cq ticker qty (some lev) s).2).1.2 = some 0 ∧
      (closePosition cq s.nextId none
          (openLong cq ticker qty (some lev) s).2).2.portfolio.cash = s.portfolio.cash ∧
      (closePosition cq s.nextId none
          (openLong cq ticker qty (some lev) s).2).2.futures.positions =
        s.futures.positions) ∧
    ((openShort cq ticker qty (some lev) s).1 = .ok ∧
      (closePosition cq s.nextId none (openShort cq ticker qty (some lev) s).2).1.1 = .ok ∧
      (closePosition cq s.nextId none (openShort cq ticker qty (some lev) s).2).1.2 = some 0 ∧
      (closePosition cq s.nextId none
          (openShort cq ticker qty (some lev) s).2).2.portfolio.cash = s.portfolio.cash ∧
      (closePosition cq s.nextId none
          (openShort cq ticker qty (some lev) s).2).2.futures.positions =
        s.futures.positions) :=
  ⟨openPosition_round_trip s cq (strToUpper ticker) qty lev P .long hP hPpos hq hl1 hl2
      hcash hfresh,
    openPosition_round_trip s cq (strToUpper ticker) qty lev P .short hP hPpos hq hl1 hl2
      hcash hfresh⟩

/-- C4 witness: open long 1 BTC at 60000 with 10× on the default state
(margin 6000 of 100000 cash) and close at 60000: pnl 0, cash restored,
position list empty again. -/
theorem futures_round_trip_witness :
    ((openLong (fun sym => if sym = "BTCUSDT" then some 60000 else none)
          "btc" 1 (some 10) init).1 = .ok ∧
      (closePosition (fun sym => if sym = "BTCUSDT" then some 60000 else none)
          init.nextId none
          (openLong (fun sym => if sym = "BTCUSDT" then some 60000 else none)
            "btc" 1 (some 10) init).2).1.1 = .ok ∧
      (closePosition (fun sym => if sym = "BTCUSDT" then some 60000 else none)
          init.nextId none
          (openLong (fun sym => if sym = "BTCUSDT" then some 60000 else none)
            "btc" 1 (some 10) init).2).1.2 = some 0 ∧
      (closePosition (fun sym => if sym = "BTCUSDT" then some 60000 else none)
          init.nextId none
          (openLong (fun sym => if sym = "BTCUSDT" then some 60000 else none)
            "btc" 1 (some 10) init).2).2.portfolio.cash = init.portfolio.cash ∧
      (closePosition (fun sym => if sym = "BTCUSDT" then some 60000 else none)
          init.nextId none
          (openLong (fun sym => if sym = "BTCUSDT" then some 60000 else none)
            "btc" 1 (some 10) init).2).2.futures.positions = init.futures.positions) ∧
    ((openShort (fun sym => if sym = "BTCUSDT" then some 60000 else none)
          "btc" 1 (some 10) init).1 = .ok ∧
      (closePosition (fun sym => if sym = "BTCUSDT" then some 60000 else none)
          init.nextId none
          (openShort (fun sym => if sym = "BTCUSDT" then some 60000 else none)
            "btc" 1 (some 10) init).2).1.1 = .ok ∧
      (closePosition (fun sym => if sym = "BTCUSDT" then some 60000 else none)
          init.nextId none
          (openShort (fun sym => if sym = "BTCUSDT" then some 60000 else none)
            "btc" 1 (some 10) init).2).1.2 = some 0 ∧
      (closePosition (fun sym => if sym = "BTCUSDT" then some 60000 else none)
          init.nextId none
          (openShort (fun sym => if sym = "BTCUSDT" then some 60000 else none)
            "btc" 1 (some 10) init).2).2.portfolio.cash = init.portfolio.cash ∧
      (closePosition (fun sym => if sym = "BTCUSDT" then some 60000 else none)
          init.nextId none
          (openShort (fun sym => if sym = "BTCUSDT" then some 60000 else none)
            "btc" 1 (some 10) init).2).2.futures.positions = init.futures.positions) :=
  futures_round_trip init (fun sym => if sym = "BTCUSDT" then some 60000 else none)
    "btc" 1 10 60000 (by decide) (by norm_num) (by norm_num) (by norm_num) (by norm_num)
    (by norm_num [calcInitialMargin, init]) (by simp [init])

/-! ## Claim C6 — settlement of expired options -/

theorem calcIntrinsicValue_nonneg (S K : ℚ) (ty : OptionType) :
    0 ≤ calcIntrinsicValue S K ty := by
  cases ty <;> exact le_max_right _ _

/-- C6: when exactly one position has expired (`expiry instant ≤ now`) and
its underlying can be priced at `S`, `settleExpiredOptions` credits cash by
`intrinsic * 100 * contracts` exactly when the intrinsic value is positive,
removes the position (leaving every other position in place), appends the
matching `expire_itm` / `expire_otm` transaction with
`pnl = settlement − premiumPaid`, and leaves the futures aggregate alone;
and when no position has expired the call changes nothing at all. -/
theorem settleExpiredOptions_spec :
    (∀ (stockQ : String → Option ℚ) (now : ℚ) (expiryMs : String → ℚ) (s : SysState)
        (pre post : List OptionPosition) (p : OptionPosition) (S : ℚ),
        s.options.positions = pre ++ p :: post →
        expiryMs p.expiryDate ≤ now →
        (∀ q ∈ pre ++ post, ¬(expiryMs q.expiryDate ≤ now) ∧ q.id ≠ p.id) →
        stockQ (strToUpper p.contract.underlying) = some S →
        0 ≤ s.portfolio.cash → 0 < p.contracts →
        (settleExpiredOptions stockQ now expiryMs s).portfolio.cash =
          s.portfolio.cash +
            (if 0 < calcIntrinsicValue S p.contract.strikePrice p.contract.type
             then calcIntrinsicValue S p.contract.strikePrice p.contract.type * 100 * p.contracts
             else 0) ∧
        (settleExpiredOptions stockQ now expiryMs s).options.positions = pre ++ post ∧
        (settleExpiredOptions stockQ now expiryMs s).options.transactions =
          s.options.transactions ++
            [⟨if 0 < calcIntrinsicValue S p.contract.strikePrice p.contract.type
                then .expireItm else .expireOtm,
              p.contract.underlying, p.contract.strikePrice, p.expiryDate, p.contracts,
              if 0 < calcIntrinsicValue S p.contract.strikePrice p.contract.type
                then calcIntrinsicValue S p.contract.strikePrice p.contract.type else 0,
              calcIntrinsicValue S p.contract.strikePrice p.contract.type * 100 * p.contracts,
              some (calcIntrinsicValue S p.contract.strikePrice p.contract.type * 100 *
                p.contracts - p.premiumPaid)⟩] ∧
        (settleExpiredOptions stockQ now expiryMs s).futures = s.futures)
    ∧ (∀ (stockQ : String → Option ℚ) (now : ℚ) (expiryMs : String → ℚ) (s : SysState),
        (∀ q ∈ s.options.positions, ¬(expiryMs q.expiryDate ≤ now)) →
        settleExpiredOptions stockQ now expiryMs s = s) := by
  constructor
  · intro stockQ now expiryMs s pre post p S hsplit hexp hothers hprice hcash hcontracts
    have hexpired : (s.options.positions.filter fun q => expiryMs q.expiryDate ≤ now) = [p] := by
      rw [hsplit, List.filter_append, List.filter_cons]
      have h1 : (pre.filter fun q => expiryMs q.expiryDate ≤ now) = [] := by
        rw [List.filter_eq_nil_iff]
        intro q hq
        simp [(hothers q (List.mem_append_left _ hq)).1]
      have h2 : (post.filter fun q => expiryMs q.expiryDate ≤ now) = [] := by
        rw [List.filter_eq_nil_iff]
        intro q hq
        simp [(hothers q (List.mem_append_right _ hq)).1]
      simp [h1, h2, hexp]
    have hfilterid : (s.options.positions.filter fun q => q.id ≠ p.id) = pre ++ post := by
      rw [hsplit, List.filter_append, List.filter_cons]
      have h1 : (pre.filter fun q => q.id ≠ p.id) = pre := by
        rw [List.filter_eq_self]
        intro q hq
        simp [(hothers q (List.mem_append_left _ hq)).2]
      have h2 : (post.filter fun q => q.id ≠ p.id) = post := by
        rw [List.filter_eq_self]
        intro q hq
        simp [(hothers q (List.mem_append_right _ hq)).2]
      rw [h1, h2, if_neg (by simp)]
    have hsettle : 0 ≤ calcIntrinsicValue S p.contract.strikePrice p.contract.type *
        100 * p.contracts := by
      have := calcIntrinsicValue_nonneg S p.contract.strikePrice p.contract.type
      positivity
    simp only [settleExpiredOptions, hexpired, List.isEmpty_cons, List.foldl_cons,
      List.foldl_nil, settleOne, fetchUnderlying, hprice]
    rw [if_neg (by simp)]
    by_cases hitm : 0 < calcIntrinsicValue S p.contract.strikePrice p.contract.type
    · simp only [if_pos hitm, adjustCash]
      refine ⟨?_, hfilterid, by trivial, by trivial⟩
      exact max_eq_right (by linarith)
    · simp only [if_neg hitm]
      exact ⟨by rw [add_zero], hfilterid, by trivial, by trivial⟩
  · intro stockQ now expiryMs s hnone
    have hfil : (s.options.positions.filter fun q => expiryMs q.expiryDate ≤ now) = [] := by
      rw [List.filter_eq_nil_iff]
      intro q hq
      simp [hnone q hq]
    simp [settleExpiredOptions, hfil]

/-- C6 witness: the spec's ITM scenario.  An expired NVDA call, strike 750,
2 contracts, premium paid 12000, underlying priced 800: settlement credits
`50 * 100 * 2 = 10000` (cash 100000 → 110000), the position is removed, and
an `expire_itm` transaction with `pnl = 10000 − 12000 = −2000` is recorded. -/
theorem settleExpiredOptions_witness :
    (settleExpiredOptions (fun k => if k = "NVDA" then some 800 else none) 100 (fun _ => 0)
        (⟨⟨100000, [], [], [], []⟩, ⟨[], [], []⟩,
          ⟨[⟨7, ⟨"NVDA", .call, 750, "2026-02-13", 0.45⟩, 2, 12000, 60, 60, 12000, 0, 0, 5,
            "2026-02-13"⟩], []⟩, 8⟩ : SysState)).portfolio.cash = 110000 ∧
    (settleExpiredOptions (fun k => if k = "NVDA" then some 800 else none) 100 (fun _ => 0)
        (⟨⟨100000, [], [], [], []⟩, ⟨[], [], []⟩,
          ⟨[⟨7, ⟨"NVDA", .call, 750, "2026-02-13", 0.45⟩, 2, 12000, 60, 60, 12000, 0, 0, 5,
            "2026-02-13"⟩], []⟩, 8⟩ : SysState)).options.positions = [] ∧
    (settleExpiredOptions (fun k => if k = "NVDA" then some 800 else none) 100 (fun _ => 0)
        (⟨⟨100000, [], [], [], []⟩, ⟨[], [], []⟩,
          ⟨[⟨7, ⟨"NVDA", .call, 750, "2026-02-13", 0.45⟩, 2, 12000, 60, 60, 12000, 0, 0, 5,
            "2026-02-13"⟩], []⟩, 8⟩ : SysState)).options.transactions =
      [⟨.expireItm, "NVDA", 750, "2026-02-13", 2, 50, 10000, some (-2000)⟩] := by
  have h := settleExpiredOptions_spec.1 (fun k => if k = "NVDA" then some 800 else none)
    100 (fun _ => 0)
    (⟨⟨100000, [], [], [], []⟩, ⟨[], [], []⟩,
      ⟨[⟨7, ⟨"NVDA", .call, 750, "2026-02-13", 0.45⟩, 2, 12000, 60, 60, 12000, 0, 0, 5,
        "2026-02-13"⟩], []⟩, 8⟩ : SysState)
    [] [] ⟨7, ⟨"NVDA", .call, 750, "2026-02-13", 0.45⟩, 2, 12000, 60, 60, 12000, 0, 0, 5,
      "2026-02-13"⟩ 800
    rfl (by norm_num) (by simp) (by simp [show strToUpper "NVDA" = "NVDA" from by decide])
    (by norm_num) (by norm_num)
  obtain ⟨hc, hp, ht, -⟩ := h
  have hintr : calcIntrinsicValue 800 750 OptionType.call = 50 := by
    rw [calcIntrinsicValue, max_eq_left (by norm_num)]
    norm_num
  refine ⟨?_, hp, ?_⟩
  · rw [hc, hintr]
    norm_num
  · rw [ht, hintr]
    norm_num

/-! ## Claim C5 — cash never goes negative -/

theorem buyStock_cash_nonneg (t : String) (q p : ℚ) (a : Option AssetType)
    (s : PortfolioData) (h : 0 ≤ s.cash) : 0 ≤ (buyStock t q p a s).2.cash := by
  simp only [buyStock]
  split
  · exact h
  · split
    · exact h
    · rename_i h2
      simp only
      linarith [not_lt.mp h2]

theorem sellStock_cash_nonneg (t : String) (q p : ℚ) (s : PortfolioData)
    (h : 0 ≤ s.cash) : 0 ≤ (sellStock t q p s).2.cash := by
  simp only [sellStock]
  split
  · exact h
  · rename_i h1
    push_neg at h1
    split
    · exact h
    · split
      · exact h
      · simp only
        nlinarith [h1.1, h1.2]

theorem executeBuy_cash_nonneg (cq sq : String → Option ℚ) (t : String) (q : ℚ)
    (ty : Option AssetType) (s : PortfolioData) (h : 0 ≤ s.cash) :
    0 ≤ (executeBuy cq sq t q ty s).2.cash := by
  simp only [executeBuy]
  split
  · exact h
  · split
    · exact h
    · split
      · exact h
      · exact buyStock_cash_nonneg _ _ _ _ _ h

theorem executeSell_cash_nonneg (cq sq : String → Option ℚ) (t : String) (q : ℚ)
    (ty : Option AssetType) (s : PortfolioData) (h : 0 ≤ s.cash) :
    0 ≤ (executeSell cq sq t q ty s).2.cash := by
  simp only [executeSell]
  split
  · exact h
  · split
    · exact h
    · split
      · exact h
      · exact sellStock_cash_nonneg _ _ _ _ h

theorem openPosition_cash_nonneg (cq : String → Option ℚ) (t : String) (q : ℚ)
    (side : Side) (lv : Option ℚ) (s : SysState) (h : 0 ≤ s.portfolio.cash) :
    0 ≤ (openPosition cq t q side lv s).2.portfolio.cash := by
  simp only [openPosition]
  split
  · exact h
  · split
    · exact h
    · split
      · exact h
      · split
        · exact h
        · exact le_max_left 0 _

theorem closePosition_cash_nonneg (cq : String → Option ℚ) (pid : ℕ)
    (q : Option ℚ) (s : SysState) (h : 0 ≤ s.portfolio.cash) :
    0 ≤ (closePosition cq pid q s).2.portfolio.cash := by
  simp only [closePosition]
  split
  · exact h
  · split
    · exact h
    · split
      · exact h
      · split
        · exact h
        · exact le_max_left 0 _

theorem buyOption_cash_nonneg (sq : String → Option ℚ) (f : ℚ → ℚ) (n : ℚ)
    (e : String → ℚ) (t : String) (ty : OptionType) (k : ℚ) (x : String) (c : ℚ)
    (s : SysState) (h : 0 ≤ s.portfolio.cash) :
    0 ≤ (buyOption sq f n e t ty k x c s).2.portfolio.cash := by
  simp only [buyOption]
  split
  · exact h
  · split
    · exact h
    · split
      · exact h
      · split
        · exact h
        · exact le_max_left 0 _

theorem sellOption_cash_nonneg (sq : String → Option ℚ) (f : ℚ → ℚ) (n : ℚ)
    (e : String → ℚ) (pid : ℕ) (c : Option ℚ) (s : SysState)
    (h : 0 ≤ s.portfolio.cash) :
    0 ≤ (sellOption sq f n e pid c s).2.portfolio.cash := by
  simp only [sellOption]
  split
  · exact h
  · split
    · exact h
    · split
      · exact h
      · split
        · exact h
        · exact le_max_left 0 _

theorem settleOne_cash_nonneg (sq : String → Option ℚ) (st : SysState)
    (pos : OptionPosition) (h : 0 ≤ st.portfolio.cash) :
    0 ≤ (settleOne sq st pos).portfolio.cash := by
  simp only [settleOne]
  split
  · exact h
  · split
    · exact le_max_left 0 _
    · exact h

theorem foldl_settleOne_cash_nonneg (sq : String → Option ℚ)
    (l : List OptionPosition) (st : SysState) (h : 0 ≤ st.portfolio.cash) :
    0 ≤ (l.foldl (settleOne sq) st).portfolio.cash := by
  induction l generalizing st with
  | nil => exact h
  | cons p rest ih =>
    rw [List.foldl_cons]
    exact ih _ (settleOne_cash_nonneg sq st p h)

theorem settleExpiredOptions_cash_nonneg (sq : String → Option ℚ) (n : ℚ)
    (e : String → ℚ) (s : SysState) (h : 0 ≤ s.portfolio.cash) :
    0 ≤ (settleExpiredOptions sq n e s).portfolio.cash := by
  simp only [settleExpiredOptions]
  split
  · exact h
  · exact foldl_settleOne_cash_nonneg sq _ s h

theorem liquidatePosition_cash_nonneg (pid : ℕ) (mp : ℚ) (s : SysState)
    (h : 0 ≤ s.portfolio.cash) :
    0 ≤ (liquidatePosition pid mp s).portfolio.cash := by
  simp only [liquidatePosition]
  split
  · exact h
  · exact le_max_left 0 _

theorem setLeverage_cash_nonneg (t : String) (lv : ℚ) (s : SysState)
    (h : 0 ≤ s.portfolio.cash) : 0 ≤ (setLeverage t lv s).2.portfolio.cash := by
  simp only [setLeverage]
  split
  · exact h
  · split
    · exact h
    · exact h

/-- One step preserves `0 ≤ cash`, provided a `reset` is not handed a
negative balance. -/
theorem step_cash_nonneg (op : Op) (s : SysState) (hc : 0 ≤ s.portfolio.cash)
    (hr : ∀ c, op = Op.resetP c → 0 ≤ c) :
    0 ≤ (step op s).portfolio.cash := by
  cases op with
  | buySpot t q p a => exact buyStock_cash_nonneg t q p a s.portfolio hc
  | sellSpot t q p => exact sellStock_cash_nonneg t q p s.portfolio hc
  | execBuy cq sq t q ty => exact executeBuy_cash_nonneg cq sq t q ty s.portfolio hc
  | execSell cq sq t q ty => exact executeSell_cash_nonneg cq sq t q ty s.portfolio hc
  | adjust d => exact le_max_left 0 _
  | resetP c => exact hr c rfl
  | record t v => exact hc
  | fOpenLong cq t q l => exact openPosition_cash_nonneg cq (strToUpper t) q .long l s hc
  | fOpenShort cq t q l => exact openPosition_cash_nonneg cq (strToUpper t) q .short l s hc
  | fClose cq pid q => exact closePosition_cash_nonneg cq pid q s hc
  | fSetLeverage t l => exact setLeverage_cash_nonneg t l s hc
  | fGetPositions cq => exact hc
  | fLiquidate pid mp => exact liquidatePosition_cash_nonneg pid mp s hc
  | oBuy sq f n e t ty k x c => exact buyOption_cash_nonneg sq f n e t ty k x c s hc
  | oSell sq f n e pid c => exact sellOption_cash_nonneg sq f n e pid c s hc
  | oSettle sq n e => exact settleExpiredOptions_cash_nonneg sq n e s hc
  | oGetPositions sq f n e => exact hc

theorem applyOps_cash_nonneg (ops : List Op) (s : SysState)
    (hc : 0 ≤ s.portfolio.cash) (hr : ∀ c, Op.resetP c ∈ ops → 0 ≤ c) :
    0 ≤ (applyOps ops s).portfolio.cash := by
  induction ops generalizing s with
  | nil => exact hc
  | cons op rest ih =>
    simp only [applyOps, List.foldl_cons]
    exact ih (step op s)
      (step_cash_nonneg op s hc fun c he => hr c (he ▸ List.mem_cons_self op rest))
      (fun c hm => hr c (List.mem_cons_of_mem op hm))

/-- C5 counterexample: the public `reset` operation does not validate its
cash argument, so `reset(-5)` drives `portfolio.cash` negative. -/
theorem cash_reset_negative_ce :
    (applyOps [Op.resetP (-5)] init).portfolio.cash < 0 := by
  norm_num [applyOps, step, resetPortfolio, init]

/-- C5 (amended): over every operation sequence in which each `reset` is
given a nonnegative balance, `portfolio.cash` stays ≥ 0 (all other cash
channels are guarded or clamped); and `adjustCash(delta)` sets cash to
`max(0, cash + delta)` exactly, so a debit past zero clamps to zero. -/
theorem cash_never_negative :
    (∀ ops : List Op, (∀ c, Op.resetP c ∈ ops → 0 ≤ c) →
        0 ≤ (applyOps ops init).portfolio.cash)
    ∧ (∀ (s : PortfolioData) (delta : ℚ), (adjustCash delta s).cash = max 0 (s.cash + delta)) :=
  ⟨fun ops hr => applyOps_cash_nonneg ops init (by norm_num [init]) hr,
    fun _ _ => rfl⟩

/-- C5 witness: draining 200000 from the default 100000 leaves cash clamped
at exactly zero, and the clamp shape of `adjustCash` at that input. -/
theorem cash_never_negative_witness :
    0 ≤ (applyOps [Op.adjust (-200000)] init).portfolio.cash ∧
    (adjustCash (-200000) init.portfolio).cash = max 0 (init.portfolio.cash + -200000) :=
  ⟨cash_never_negative.1 [Op.adjust (-200000)] (fun c h => by simp at h),
    cash_never_negative.2 init.portfolio (-200000)⟩

/-! ## Claim C3 — margin/liquidation invariants of open futures positions -/

/-- The maintenance-margin tier function only ever yields the four tier
rates. -/
theorem calcMaintenanceMarginRate_cases (x : ℚ) :
    calcMaintenanceMarginRate x = 0.004 ∨ calcMaintenanceMarginRate x = 0.005 ∨
    calcMaintenanceMarginRate x = 0.01 ∨ calcMaintenanceMarginRate x = 0.025 := by
  unfold calcMaintenanceMarginRate
  split
  · exact Or.inl rfl
  split
  · exact Or.inr (Or.inl rfl)
  split
  · exact Or.inr (Or.inr (Or.inl rfl))
  · exact Or.inr (Or.inr (Or.inr rfl))

/-- The inductive invariant on open futures positions: positive quantity,
the initial-margin identity, and the side's liquidation closed form for one
of the four tier rates (the one fixed at open). -/
def FuturesInv (s : SysState) : Prop :=
  ∀ pos ∈ s.futures.positions,
    0 < pos.quantity ∧
    pos.initialMargin = pos.entryPrice * pos.quantity / pos.leverage ∧
    ∃ r, (r = 0.004 ∨ r = 0.005 ∨ r = 0.01 ∨ r = 0.025) ∧
      pos.liquidationPrice = calcLiquidationPrice pos.entryPrice pos.leverage r pos.side

theorem mem_updateFirstPos (pid : ℕ) (repl : FuturesPosition)
    (l : List FuturesPosition) (x : FuturesPosition)
    (hx : x ∈ updateFirstPos pid repl l) : x ∈ l ∨ x = repl := by
  induction l with
  | nil => simp [updateFirstPos] at hx
  | cons q rest ih =>
    simp only [updateFirstPos] at hx
    by_cases hq : q.id = pid
    · rw [if_pos hq] at hx
      rcases List.mem_cons.mp hx with h | h
      · exact Or.inr h
      · exact Or.inl (List.mem_cons_of_mem _ h)
    · rw [if_neg hq] at hx
      rcases List.mem_cons.mp hx with h | h
      · exact Or.inl (h ▸ List.mem_cons_self _ _)
      · rcases ih h with h' | h'
        · exact Or.inl (List.mem_cons_of_mem _ h')
        · exact Or.inr h'

/-- Proportional margin scaling of a partial close, exact over `ℚ`. -/
theorem margin_scale (e lv q0 c : ℚ) (h0 : q0 ≠ 0) :
    e * q0 / lv - c / q0 * (e * q0 / lv) = e * (q0 - c) / lv := by
  by_cases hlv : lv = 0
  · subst hlv
    simp
  · field_simp
    ring

theorem openPosition_inv (cq : String → Option ℚ) (t : String) (q : ℚ)
    (side : Side) (lv : Option ℚ) (s : SysState) (h : FuturesInv s) :
    FuturesInv (openPosition cq t q side lv s).2 := by
  simp only [openPosition]
  split
  · exact h
  rename_i hq
  split
  · exact h
  split
  · exact h
  rename_i mp hfetch
  split
  · exact h
  intro pos hmem
  rcases List.mem_append.mp hmem with hm | hm
  · exact h pos hm
  · rw [List.mem_singleton.mp hm]
    refine ⟨not_le.mp hq, ?_,
      calcMaintenanceMarginRate (q * mp), calcMaintenanceMarginRate_cases _, rfl⟩
    rw [calcInitialMargin, mul_comm]

theorem closePosition_inv (cq : String → Option ℚ) (pid : ℕ) (q : Option ℚ)
    (s : SysState) (h : FuturesInv s) : FuturesInv (closePosition cq pid q s).2 := by
  simp only [closePosition]
  split
  · exact h
  rename_i pos0 hfind
  split
  · exact h
  rename_i hq1
  split
  · exact h
  rename_i hq2
  split
  · exact h
  intro pos hmem
  by_cases hrem : pos0.quantity - q.getD pos0.quantity = 0
  · rw [if_pos hrem] at hmem
    exact h pos (List.mem_of_mem_filter hmem)
  · rw [if_neg hrem] at hmem
    rcases mem_updateFirstPos _ _ _ _ hmem with hm | hm
    · exact h pos hm
    · obtain ⟨hq0, hIM0, r, hr, hliq⟩ := h pos0 (List.mem_of_find?_eq_some hfind)
      rw [hm]
      refine ⟨?_, ?_, r, hr, hliq⟩
      · exact lt_of_le_of_ne (sub_nonneg.mpr (not_lt.mp hq2)) (Ne.symm hrem)
      · rw [hIM0]
        exact margin_scale pos0.entryPrice pos0.leverage pos0.quantity
          (q.getD pos0.quantity) (ne_of_gt hq0)

theorem futuresGetPositions_inv (cq : String → Option ℚ) (s : SysState)
    (h : FuturesInv s) : FuturesInv (futuresGetPositions cq s) := by
  intro pos hmem
  simp only [futuresGetPositions] at hmem
  rcases List.mem_map.mp hmem with ⟨p0, hp0, rfl⟩
  obtain ⟨hq0, hIM0, r, hr, hliq⟩ := h p0 hp0
  exact ⟨hq0, hIM0, r, hr, hliq⟩

theorem liquidatePosition_inv (pid : ℕ) (mp : ℚ) (s : SysState)
    (h : FuturesInv s) : FuturesInv (liquidatePosition pid mp s) := by
  simp only [liquidatePosition]
  split
  · exact h
  intro pos hmem
  exact h pos (List.mem_of_mem_filter hmem)

theorem setLeverage_inv (t : String) (lv : ℚ) (s : SysState) (h : FuturesInv s) :
    FuturesInv (setLeverage t lv s).2 := by
  simp only [setLeverage]
  split
  · exact h
  split
  · exact h
  · exact h

theorem settleOne_futures (sq : String → Option ℚ) (st : SysState)
    (pos : OptionPosition) : (settleOne sq st pos).futures = st.futures := by
  simp only [settleOne]
  split
  · rfl
  · rfl

theorem foldl_settleOne_futures (sq : String → Option ℚ)
    (l : List OptionPosition) (st : SysState) :
    (l.foldl (settleOne sq) st).futures = st.futures := by
  induction l generalizing st with
  | nil => rfl
  | cons p rest ih =>
    rw [List.foldl_cons, ih, settleOne_futures]

theorem settleExpiredOptions_futures (sq : String → Option ℚ) (n : ℚ)
    (e : String → ℚ) (s : SysState) :
    (settleExpiredOptions sq n e s).futures = s.futures := by
  simp only [settleExpiredOptions]
  split
  · rfl
  · exact foldl_settleOne_futures sq _ s

theorem buyOption_futures (sq : String → Option ℚ) (f : ℚ → ℚ) (n : ℚ)
    (e : String → ℚ) (t : String) (ty : OptionType) (k : ℚ) (x : String) (c : ℚ)
    (s : SysState) : (buyOption sq f n e t ty k x c s).2.futures = s.futures := by
  simp only [buyOption]
  split
  · rfl
  split
  · rfl
  split
  · rfl
  split
  · rfl
  · rfl

theorem sellOption_futures (sq : String → Option ℚ) (f : ℚ → ℚ) (n : ℚ)
    (e : String → ℚ) (pid : ℕ) (c : Option ℚ) (s : SysState) :
    (sellOption sq f n e pid c s).2.futures = s.futures := by
  simp only [sellOption]
  split
  · rfl
  split
  · rfl
  split
  · rfl
  split
  · rfl
  · rfl

theorem futuresInv_of_futures_eq {s s' : SysState} (hf : s'.futures = s.futures)
    (h : FuturesInv s) : FuturesInv s' := by
  intro pos hmem
  rw [hf] at hmem
  exact h pos hmem

/-- One step preserves the open-position invariant. -/
theorem step_futuresInv (op : Op) (s : SysState) (h : FuturesInv s) :
    FuturesInv (step op s) := by
  cases op with
  | buySpot t q p a => exact h
  | sellSpot t q p => exact h
  | execBuy cq sq t q ty => exact h
  | execSell cq sq t q ty => exact h
  | adjust d => exact h
  | resetP c => exact h
  | record t v => exact h
  | fOpenLong cq t q l => exact openPosition_inv cq (strToUpper t) q .long l s h
  | fOpenShort cq t q l => exact openPosition_inv cq (strToUpper t) q .short l s h
  | fClose cq pid q => exact closePosition_inv cq pid q s h
  | fSetLeverage t l => exact setLeverage_inv t l s h
  | fGetPositions cq => exact futuresGetPositions_inv cq s h
  | fLiquidate pid mp => exact liquidatePosition_inv pid mp s h
  | oBuy sq f n e t ty k x c =>
    exact futuresInv_of_futures_eq (buyOption_futures sq f n e t ty k x c s) h
  | oSell sq f n e pid c =>
    exact futuresInv_of_futures_eq (sellOption_futures sq f n e pid c s) h
  | oSettle sq n e =>
    exact futuresInv_of_futures_eq (settleExpiredOptions_futures sq n e s) h
  | oGetPositions sq f n e => exact h

theorem applyOps_futuresInv (ops : List Op) (s : SysState) (h : FuturesInv s) :
    FuturesInv (applyOps ops s) := by
  induction ops generalizing s with
  | nil => exact h
  | cons op rest ih =>
    simp only [applyOps, List.foldl_cons]
    exact ih (step op s) (step_futuresInv op s h)

/-- C3 counterexample: open long 2 BTC at 60000 with 10× (notional 120000,
tier rate 0.005), then close 1.5 of it at the same price.  The surviving
position has notional `0.5 * 60000 = 30000`, whose tier is 0.004, but its
stored `maintenanceMarginRate` is still 0.005 — partial close does not
recompute it. -/
theorem futures_mmRate_stale_ce :
    ∃ pos ∈ (applyOps
        [Op.fOpenLong (fun k => if k = "BTCUSDT" then some 60000 else none) "BTC" 2 (some 10),
         Op.fClose (fun k => if k = "BTCUSDT" then some 60000 else none) 0 (some 1.5)]
        init).futures.positions,
      pos.maintenanceMarginRate ≠ calcMaintenanceMarginRate (pos.quantity * pos.markPrice) := by
  have hup : strToUpper "BTC" = "BTC" := by decide
  have hsym : toBinanceSymbol "BTC" = "BTCUSDT" := by decide
  have hstate : (applyOps
      [Op.fOpenLong (fun k => if k = "BTCUSDT" then some 60000 else none) "BTC" 2 (some 10),
       Op.fClose (fun k => if k = "BTCUSDT" then some 60000 else none) 0 (some 1.5)]
      init).futures.positions =
      [⟨0, "BTC", .long, 0.5, 60000, 60000, 10, 3000, 600, 3000, 54300, 0.005, 0, 0, 0⟩] := by
    norm_num [applyOps, step, openLong, openPosition, closePosition, fetchMarkPrice, hup,
      hsym, getLeverage, lookupKey, calcInitialMargin, calcMaintenanceMarginRate,
      calcMaintenanceMargin, calcLiquidationPrice, calcUnrealizedPnl, adjustCash, init,
      updateFirstPos, List.find?]
  refine ⟨⟨0, "BTC", .long, 0.5, 60000, 60000, 10, 3000, 600, 3000, 54300, 0.005, 0, 0, 0⟩,
    ?_, ?_⟩
  · rw [hstate]
    exact List.mem_singleton.mpr rfl
  · norm_num [calcMaintenanceMarginRate]

/-- C3 (amended): at every reachable state, every open futures position has
`initialMargin = entryPrice * quantity / leverage` exactly and a
`liquidationPrice` matching the closed form for its side at one of the four
tier rates (the rate fixed when it was opened); the stored
`maintenanceMarginRate` equals the tier for the position's current notional
(`quantity * markPrice`) after every `getPositions` refresh (and at open,
when `markPrice = entryPrice`), but a partial close leaves it stale until
the next refresh. -/
theorem futures_margin_invariant :
    (∀ ops : List Op, ∀ pos ∈ (applyOps ops init).futures.positions,
        pos.initialMargin = pos.entryPrice * pos.quantity / pos.leverage ∧
        ∃ r, (r = 0.004 ∨ r = 0.005 ∨ r = 0.01 ∨ r = 0.025) ∧
          pos.liquidationPrice = calcLiquidationPrice pos.entryPrice pos.leverage r pos.side)
    ∧ (∀ (cq : String → Option ℚ) (s : SysState),
        ∀ pos ∈ (futuresGetPositions cq s).futures.positions,
          pos.maintenanceMarginRate =
            calcMaintenanceMarginRate (pos.quantity * pos.markPrice)) := by
  constructor
  · intro ops pos hmem
    have hinv : FuturesInv (applyOps ops init) :=
      applyOps_futuresInv ops init (by intro p hp; simp [init] at hp)
    obtain ⟨-, hIM, r, hr, hliq⟩ := hinv pos hmem
    exact ⟨hIM, r, hr, hliq⟩
  · intro cq s pos hmem
    simp only [futuresGetPositions] at hmem
    rcases List.mem_map.mp hmem with ⟨p0, hp0, rfl⟩
    rfl

/-- C3 witness: the position opened by `openLong("BTC", 2, 10)` at 60000 has
`initialMargin 12000 = 60000 * 2 / 10` and `liquidationPrice 54300` in the
closed form at tier rate 0.005; and after a `getPositions` refresh the
stored rate matches the tier of the refreshed notional. -/
theorem futures_margin_invariant_witness :
    ((12000 : ℚ) = 60000 * 2 / 10 ∧
      ∃ r, (r = 0.004 ∨ r = 0.005 ∨ r = 0.01 ∨ r = 0.025) ∧
        (54300 : ℚ) = calcLiquidationPrice 60000 10 r .long) ∧
    (refreshFuturesPos (fun k => if k = "BTCUSDT" then some 60000 else none)
        ⟨0, "BTC", .long, 2, 60000, 60000, 10, 12000, 600, 12000, 54300, 0.005, 0, 0,
          0⟩).maintenanceMarginRate =
      calcMaintenanceMarginRate
        ((refreshFuturesPos (fun k => if k = "BTCUSDT" then some 60000 else none)
            ⟨0, "BTC", .long, 2, 60000, 60000, 10, 12000, 600, 12000, 54300, 0.005, 0, 0,
              0⟩).quantity *
          (refreshFuturesPos (fun k => if k = "BTCUSDT" then some 60000 else none)
            ⟨0, "BTC", .long, 2, 60000, 60000, 10, 12000, 600, 12000, 54300, 0.005, 0, 0,
              0⟩).markPrice) := by
  constructor
  · have hup : strToUpper "BTC" = "BTC" := by decide
    have hsym : toBinanceSymbol "BTC" = "BTCUSDT" := by decide
    have hopenstate : (applyOps
        [Op.fOpenLong (fun k => if k = "BTCUSDT" then some 60000 else none) "BTC" 2 (some 10)]
        init).futures.positions =
        [⟨0, "BTC", .long, 2, 60000, 60000, 10, 12000, 600, 12000, 54300, 0.005, 0, 0, 0⟩] := by
      norm_num [applyOps, step, openLong, openPosition, fetchMarkPrice, hup, hsym,
        getLeverage, lookupKey, calcInitialMargin, calcMaintenanceMarginRate,
        calcMaintenanceMargin, calcLiquidationPrice, adjustCash, init]
    have hmem : (⟨0, "BTC", .long, 2, 60000, 60000, 10, 12000, 600, 12000, 54300, 0.005, 0,
        0, 0⟩ : FuturesPosition) ∈ (applyOps
        [Op.fOpenLong (fun k => if k = "BTCUSDT" then some 60000 else none) "BTC" 2 (some 10)]
        init).futures.positions := by
      rw [hopenstate]
      exact List.mem_singleton.mpr rfl
    exact futures_margin_invariant.1
      [Op.fOpenLong (fun k => if k = "BTCUSDT" then some 60000 else none) "BTC" 2 (some 10)]
      _ hmem
  · refine futures_margin_invariant.2 (fun k => if k = "BTCUSDT" then some 60000 else none)
      ⟨⟨100000, [], [], [], []⟩,
        ⟨[⟨0, "BTC", .long, 2, 60000, 60000, 10, 12000, 600, 12000, 54300, 0.005, 0, 0, 0⟩],
          [], []⟩, ⟨[], []⟩, 1⟩ _ ?_
    simp [futuresGetPositions]

end ClawStreet
